import Mathlib

/-!
# Burn engine: bundle manifest loading (`src/burn/engine/manifest.cpp`)

A shallow embedding of `ManifestLoadXmlFromFile`, `ManifestLoadXmlFromBuffer`
and `ParseFromXml`.  The XML document source, the element/attribute accessors
and the eleven section parsers are collaborators declared outside
`manifest.cpp`; they are taken as the fields of an `Env`, so every theorem
below holds for every behaviour of those collaborators.

Conventions of the embedding:

* an `HRESULT` is an `Int`; `FAILED hr` is `hr < 0`;
* a possibly-NULL pointer is an `Option`; a COM out-parameter that starts
  `NULL` is modelled by the `Option` the callee hands back;
* an in/out parameter pointing into the engine state (`LPWSTR*`, `BOOL*`, a
  section slice) is modelled by the callee returning what it stored
  (`none`: nothing stored) or the new slice value;
* `goto LExit` is the `Except.error` branch of `ParseFromXml.body`, carrying
  the local variables (`Frame`) to the cleanup block;
* the run records a `trace` of `Event`s (ghost state): every collaborator call
  with the code it returned, every pointer handed out, every `Release`.
-/

namespace Manifest

/-! ## Result codes and macros -/

/-- Windows `HRESULT` status code. -/
abbrev HRESULT := Int

/-- Windows `BOOL` (an `int`). -/
abbrev BOOL := Int

/-- Nullable wide string owned by the engine state (`LPWSTR`). -/
abbrev LPWSTR := Option String

/-- Non-null `IXMLDOMDocument*`. -/
abbrev IXMLDOMDocument := Nat

/-- Non-null `IXMLDOMNode*` / `IXMLDOMElement*`. -/
abbrev IXMLDOMNode := Nat

/-- Modelled from the spec: the success code `S_OK` ("found"); its declaration
comes through `precomp.h`, which is not part of the sources. -/
def S_OK : HRESULT := 0

/-- Modelled from the spec: the sentinel success code `S_FALSE` by which an
element lookup reports "not found" (spec section 9); declared through
`precomp.h`. -/
def S_FALSE : HRESULT := 1

/-- Modelled from the spec: the dedicated "not found" error kind `E_NOTFOUND`
(`HRESULT_FROM_WIN32(ERROR_NOT_FOUND)`, `0x80070490` as a signed 32-bit value);
declared through `precomp.h`. -/
def E_NOTFOUND : HRESULT := -2147023728

/-- Modelled from the spec: the `FAILED(hr)` test used by `ExitOnFailure`
(negative codes are failures); declared through `precomp.h`. -/
def FAILED (hr : HRESULT) : Bool := decide (hr < 0)

/-! ## Engine state -/

/-- Types of the section slices of `BURN_ENGINE_STATE`; their declarations are
not part of the sources, so they are left abstract. -/
structure Slices where
  BURN_CONDITION : Type
  BURN_VARIABLES : Type
  BURN_USER_EXPERIENCE_REST : Type
  BURN_PAYLOADS : Type
  BURN_EXTENSIONS : Type
  BURN_SEARCHES : Type
  BURN_REGISTRATION : Type
  BURN_CACHE : Type
  BURN_UPDATE : Type
  BURN_CONTAINERS : Type
  BURN_PACKAGES : Type
  BURN_APPROVED_EXES : Type

/-- The fields `pEngineState->log.*` written by `ParseFromXml`. -/
structure BURN_LOGGING where
  sczPathVariable : LPWSTR
  sczPrefix : LPWSTR
  sczExtension : LPWSTR
  deriving DecidableEq, Repr

/-- The field `pEngineState->internalCommand.fDisableSystemRestore`. -/
structure BURN_ENGINE_COMMAND where
  fDisableSystemRestore : BOOL
  deriving DecidableEq, Repr

/-- The user-experience descriptor `pEngineState->userExperience`: its `payloads`
member is also handed to the extensions parser. -/
structure BURN_USER_EXPERIENCE (T : Slices) where
  payloads : T.BURN_PAYLOADS
  rest : T.BURN_USER_EXPERIENCE_REST

/-- The fields of `BURN_ENGINE_STATE` that `manifest.cpp` touches. -/
structure BURN_ENGINE_STATE (T : Slices) where
  log : BURN_LOGGING
  fDisableRollback : BOOL
  fParallelCacheAndExecute : BOOL
  internalCommand : BURN_ENGINE_COMMAND
  condition : T.BURN_CONDITION
  variables_ : T.BURN_VARIABLES
  userExperience : BURN_USER_EXPERIENCE T
  extensions : T.BURN_EXTENSIONS
  searches : T.BURN_SEARCHES
  registration : T.BURN_REGISTRATION
  cache : T.BURN_CACHE
  update : T.BURN_UPDATE
  containers : T.BURN_CONTAINERS
  payloads : T.BURN_PAYLOADS
  layoutPayloads : T.BURN_PAYLOADS
  packages : T.BURN_PACKAGES
  approvedExes : T.BURN_APPROVED_EXES

/-! ## Collaborators -/

/-- The functions `manifest.cpp` calls and does not define.  A pointer
out-parameter is returned as an `Option` (`none`: left `NULL`); a stored
attribute value is returned as an `Option` (`none`: the destination was not
written); a section parser returns the new value of every slice it is handed a
pointer to. -/
structure Env (T : Slices) where
  XmlLoadDocumentFromFile : String → HRESULT × Option IXMLDOMDocument
  XmlLoadDocumentFromBuffer : List Nat → Nat → HRESULT × Option IXMLDOMDocument
  get_documentElement : IXMLDOMDocument → HRESULT × Option IXMLDOMNode
  XmlSelectSingleNode : Option IXMLDOMNode → String → HRESULT × Option IXMLDOMNode
  XmlGetAttributeEx : Option IXMLDOMNode → String → HRESULT × Option String
  XmlGetYesNoAttribute : Option IXMLDOMNode → String → HRESULT × Option BOOL
  ConditionGlobalParseFromXml :
    T.BURN_CONDITION → Option IXMLDOMNode → HRESULT × T.BURN_CONDITION
  VariablesParseFromXml :
    T.BURN_VARIABLES → Option IXMLDOMNode → HRESULT × T.BURN_VARIABLES
  UserExperienceParseFromXml :
    BURN_USER_EXPERIENCE T → Option IXMLDOMNode → HRESULT × BURN_USER_EXPERIENCE T
  BurnExtensionParseFromXml :
    T.BURN_EXTENSIONS → T.BURN_PAYLOADS → Option IXMLDOMNode →
      HRESULT × T.BURN_EXTENSIONS × T.BURN_PAYLOADS
  SearchesParseFromXml :
    T.BURN_SEARCHES → T.BURN_EXTENSIONS → Option IXMLDOMNode →
      HRESULT × T.BURN_SEARCHES × T.BURN_EXTENSIONS
  RegistrationParseFromXml :
    T.BURN_REGISTRATION → T.BURN_CACHE → Option IXMLDOMNode →
      HRESULT × T.BURN_REGISTRATION × T.BURN_CACHE
  UpdateParseFromXml :
    T.BURN_UPDATE → Option IXMLDOMNode → HRESULT × T.BURN_UPDATE
  ContainersParseFromXml :
    T.BURN_CONTAINERS → Option IXMLDOMNode → HRESULT × T.BURN_CONTAINERS
  PayloadsParseFromXml :
    T.BURN_PAYLOADS → T.BURN_CONTAINERS → T.BURN_PAYLOADS → Option IXMLDOMNode →
      HRESULT × T.BURN_PAYLOADS × T.BURN_CONTAINERS × T.BURN_PAYLOADS
  PackagesParseFromXml :
    T.BURN_PACKAGES → T.BURN_PAYLOADS → Option IXMLDOMNode →
      HRESULT × T.BURN_PACKAGES × T.BURN_PAYLOADS
  ApprovedExesParseFromXml :
    T.BURN_APPROVED_EXES → Option IXMLDOMNode → HRESULT × T.BURN_APPROVED_EXES

/-! ## Trace of a run -/

/-- The eleven section parsers called by `ParseFromXml`. -/
inductive Section where
  | condition
  | variables
  | userExperience
  | extensions
  | searches
  | registration
  | update
  | containers
  | payloads
  | packages
  | approvedExes
  deriving DecidableEq, Repr

/-- What a run does that the caller can observe through test doubles. -/
inductive Event where
  | loadFromFile (hr : HRESULT)
  | loadFromBuffer (hr : HRESULT)
  | acquireDocument (d : IXMLDOMDocument)
  | releaseDocument (d : IXMLDOMDocument)
  | documentElement (hr : HRESULT)
  | selectSingleNode (name : String) (hr : HRESULT)
  | getAttributeEx (name : String) (hr : HRESULT)
  | getYesNoAttribute (name : String) (hr : HRESULT)
  | parse (s : Section) (hr : HRESULT)
  | acquire (n : IXMLDOMNode)
  | release (n : IXMLDOMNode)
  deriving DecidableEq, Repr

/-- The event of a pointer out-parameter receiving a non-NULL node. -/
def acquired (p : Option IXMLDOMNode) : List Event :=
  match p with
  | some n => [Event.acquire n]
  | none => []

/-- Modelled from the spec: `ReleaseObject(x)`, which releases `x` when it is
not `NULL`; the macro is declared through `precomp.h`. -/
def ReleaseObject (p : Option IXMLDOMNode) : List Event :=
  match p with
  | some n => [Event.release n]
  | none => []

/-- The destination of a string attribute after the accessor returned. -/
def storeString (old : LPWSTR) (written : Option String) : LPWSTR :=
  match written with
  | some v => some v
  | none => old

/-- The destination of a yes/no attribute after the accessor returned. -/
def storeBool (old : BOOL) (written : Option BOOL) : BOOL :=
  match written with
  | some v => v
  | none => old

/-! ## Local variables and `ExitOnFailure` -/

/-- Local variables of `ParseFromXml`, the engine state it points to, and the
trace so far. -/
structure Frame (T : Slices) where
  hr : HRESULT
  pixeBundle : Option IXMLDOMNode
  pixnLog : Option IXMLDOMNode
  pixnChain : Option IXMLDOMNode
  engine : BURN_ENGINE_STATE T
  trace : List Event

/-- Modelled from the spec: `ExitOnFailure(hr, ...)`, which jumps to `LExit`
when `hr` is a failure; the macro is declared through `precomp.h`. -/
def ExitOnFailure {T : Slices} (f : Frame T) : Except (Frame T) (Frame T) :=
  if FAILED f.hr then Except.error f else Except.ok f

/-! ## The statements of `ParseFromXml`, one definition per call

Each definition is one call of a collaborator together with the assignments
the call makes: `hr`, the out-parameter, and the trace. -/

/-- Line 65: `hr = pixdDocument->get_documentElement(&pixeBundle);` -/
@[simps]
def doGetDocumentElement {T : Slices} (env : Env T) (pixdDocument : IXMLDOMDocument)
    (f : Frame T) : Frame T :=
  let r := env.get_documentElement pixdDocument
  { f with
    hr := r.1, pixeBundle := r.2,
    trace := f.trace ++ Event.documentElement r.1 :: acquired r.2 }

/-- Line 69: `hr = XmlSelectSingleNode(pixeBundle, L"Log", &pixnLog);` -/
@[simps]
def doSelectLog {T : Slices} (env : Env T) (f : Frame T) : Frame T :=
  let r := env.XmlSelectSingleNode f.pixeBundle "Log"
  { f with
    hr := r.1, pixnLog := r.2,
    trace := f.trace ++ Event.selectSingleNode "Log" r.1 :: acquired r.2 }

/-- Line 74: `hr = XmlGetAttributeEx(pixnLog, L"PathVariable",
&pEngineState->log.sczPathVariable);` -/
@[simps]
def doGetLogPathVariable {T : Slices} (env : Env T) (f : Frame T) : Frame T :=
  let r := env.XmlGetAttributeEx f.pixnLog "PathVariable"
  { f with
    hr := r.1,
    engine.log.sczPathVariable := storeString f.engine.log.sczPathVariable r.2,
    trace := f.trace ++ [Event.getAttributeEx "PathVariable" r.1] }

/-- Line 80: `hr = XmlGetAttributeEx(pixnLog, L"Prefix", &pEngineState->log.sczPrefix);` -/
@[simps]
def doGetLogPrefix {T : Slices} (env : Env T) (f : Frame T) : Frame T :=
  let r := env.XmlGetAttributeEx f.pixnLog "Prefix"
  { f with
    hr := r.1,
    engine.log.sczPrefix := storeString f.engine.log.sczPrefix r.2,
    trace := f.trace ++ [Event.getAttributeEx "Prefix" r.1] }

/-- Line 83: `hr = XmlGetAttributeEx(pixnLog, L"Extension",
&pEngineState->log.sczExtension);` -/
@[simps]
def doGetLogExtension {T : Slices} (env : Env T) (f : Frame T) : Frame T :=
  let r := env.XmlGetAttributeEx f.pixnLog "Extension"
  { f with
    hr := r.1,
    engine.log.sczExtension := storeString f.engine.log.sczExtension r.2,
    trace := f.trace ++ [Event.getAttributeEx "Extension" r.1] }

/-- Line 88: `hr = XmlSelectSingleNode(pixeBundle, L"Chain", &pixnChain);` -/
@[simps]
def doSelectChain {T : Slices} (env : Env T) (f : Frame T) : Frame T :=
  let r := env.XmlSelectSingleNode f.pixeBundle "Chain"
  { f with
    hr := r.1, pixnChain := r.2,
    trace := f.trace ++ Event.selectSingleNode "Chain" r.1 :: acquired r.2 }

/-- Line 94: `hr = XmlGetYesNoAttribute(pixnChain, L"DisableRollback",
&pEngineState->fDisableRollback);` -/
@[simps]
def doGetDisableRollback {T : Slices} (env : Env T) (f : Frame T) : Frame T :=
  let r := env.XmlGetYesNoAttribute f.pixnChain "DisableRollback"
  { f with
    hr := r.1,
    engine.fDisableRollback := storeBool f.engine.fDisableRollback r.2,
    trace := f.trace ++ [Event.getYesNoAttribute "DisableRollback" r.1] }

/-- Line 101: `hr = XmlGetYesNoAttribute(pixnChain, L"DisableSystemRestore",
&pEngineState->internalCommand.fDisableSystemRestore);` -/
@[simps]
def doGetDisableSystemRestore {T : Slices} (env : Env T) (f : Frame T) : Frame T :=
  let r := env.XmlGetYesNoAttribute f.pixnChain "DisableSystemRestore"
  { f with
    hr := r.1,
    engine.internalCommand.fDisableSystemRestore :=
      storeBool f.engine.internalCommand.fDisableSystemRestore r.2,
    trace := f.trace ++ [Event.getYesNoAttribute "DisableSystemRestore" r.1] }

/-- Line 108: `hr = XmlGetYesNoAttribute(pixnChain, L"ParallelCache",
&pEngineState->fParallelCacheAndExecute);` -/
@[simps]
def doGetParallelCache {T : Slices} (env : Env T) (f : Frame T) : Frame T :=
  let r := env.XmlGetYesNoAttribute f.pixnChain "ParallelCache"
  { f with
    hr := r.1,
    engine.fParallelCacheAndExecute := storeBool f.engine.fParallelCacheAndExecute r.2,
    trace := f.trace ++ [Event.getYesNoAttribute "ParallelCache" r.1] }

/-- Line 116: `hr = ConditionGlobalParseFromXml(&pEngineState->condition, pixeBundle);` -/
@[simps]
def doConditionGlobalParseFromXml {T : Slices} (env : Env T) (f : Frame T) : Frame T :=
  let r := env.ConditionGlobalParseFromXml f.engine.condition f.pixeBundle
  { f with
    hr := r.1, engine.condition := r.2,
    trace := f.trace ++ [Event.parse Section.condition r.1] }

/-- Line 120: `hr = VariablesParseFromXml(&pEngineState->variables, pixeBundle);` -/
@[simps]
def doVariablesParseFromXml {T : Slices} (env : Env T) (f : Frame T) : Frame T :=
  let r := env.VariablesParseFromXml f.engine.variables_ f.pixeBundle
  { f with
    hr := r.1, engine.variables_ := r.2,
    trace := f.trace ++ [Event.parse Section.variables r.1] }

/-- Line 124: `hr = UserExperienceParseFromXml(&pEngineState->userExperience,
pixeBundle);` -/
@[simps]
def doUserExperienceParseFromXml {T : Slices} (env : Env T) (f : Frame T) : Frame T :=
  let r := env.UserExperienceParseFromXml f.engine.userExperience f.pixeBundle
  { f with
    hr := r.1, engine.userExperience := r.2,
    trace := f.trace ++ [Event.parse Section.userExperience r.1] }

/-- Line 128: `hr = BurnExtensionParseFromXml(&pEngineState->extensions,
&pEngineState->userExperience.payloads, pixeBundle);` -/
@[simps]
def doBurnExtensionParseFromXml {T : Slices} (env : Env T) (f : Frame T) : Frame T :=
  let r := env.BurnExtensionParseFromXml f.engine.extensions
    f.engine.userExperience.payloads f.pixeBundle
  { f with
    hr := r.1, engine.extensions := r.2.1, engine.userExperience.payloads := r.2.2,
    trace := f.trace ++ [Event.parse Section.extensions r.1] }

/-- Line 132: `hr = SearchesParseFromXml(&pEngineState->searches,
&pEngineState->extensions, pixeBundle);` -/
@[simps]
def doSearchesParseFromXml {T : Slices} (env : Env T) (f : Frame T) : Frame T :=
  let r := env.SearchesParseFromXml f.engine.searches f.engine.extensions f.pixeBundle
  { f with
    hr := r.1, engine.searches := r.2.1, engine.extensions := r.2.2,
    trace := f.trace ++ [Event.parse Section.searches r.1] }

/-- Line 136: `hr = RegistrationParseFromXml(&pEngineState->registration,
&pEngineState->cache, pixeBundle);` -/
@[simps]
def doRegistrationParseFromXml {T : Slices} (env : Env T) (f : Frame T) : Frame T :=
  let r := env.RegistrationParseFromXml f.engine.registration f.engine.cache f.pixeBundle
  { f with
    hr := r.1, engine.registration := r.2.1, engine.cache := r.2.2,
    trace := f.trace ++ [Event.parse Section.registration r.1] }

/-- Line 140: `hr = UpdateParseFromXml(&pEngineState->update, pixeBundle);` -/
@[simps]
def doUpdateParseFromXml {T : Slices} (env : Env T) (f : Frame T) : Frame T :=
  let r := env.UpdateParseFromXml f.engine.update f.pixeBundle
  { f with
    hr := r.1, engine.update := r.2,
    trace := f.trace ++ [Event.parse Section.update r.1] }

/-- Line 144: `hr = ContainersParseFromXml(&pEngineState->containers, pixeBundle);` -/
@[simps]
def doContainersParseFromXml {T : Slices} (env : Env T) (f : Frame T) : Frame T :=
  let r := env.ContainersParseFromXml f.engine.containers f.pixeBundle
  { f with
    hr := r.1, engine.containers := r.2,
    trace := f.trace ++ [Event.parse Section.containers r.1] }

/-- Line 148: `hr = PayloadsParseFromXml(&pEngineState->payloads,
&pEngineState->containers, &pEngineState->layoutPayloads, pixeBundle);` -/
@[simps]
def doPayloadsParseFromXml {T : Slices} (env : Env T) (f : Frame T) : Frame T :=
  let r := env.PayloadsParseFromXml f.engine.payloads f.engine.containers
    f.engine.layoutPayloads f.pixeBundle
  { f with
    hr := r.1, engine.payloads := r.2.1, engine.containers := r.2.2.1,
    engine.layoutPayloads := r.2.2.2,
    trace := f.trace ++ [Event.parse Section.payloads r.1] }

/-- Line 152: `hr = PackagesParseFromXml(&pEngineState->packages,
&pEngineState->payloads, pixeBundle);` -/
@[simps]
def doPackagesParseFromXml {T : Slices} (env : Env T) (f : Frame T) : Frame T :=
  let r := env.PackagesParseFromXml f.engine.packages f.engine.payloads f.pixeBundle
  { f with
    hr := r.1, engine.packages := r.2.1, engine.payloads := r.2.2,
    trace := f.trace ++ [Event.parse Section.packages r.1] }

/-- Line 156: `hr = ApprovedExesParseFromXml(&pEngineState->approvedExes,
pixeBundle);` -/
@[simps]
def doApprovedExesParseFromXml {T : Slices} (env : Env T) (f : Frame T) : Frame T :=
  let r := env.ApprovedExesParseFromXml f.engine.approvedExes f.pixeBundle
  { f with
    hr := r.1, engine.approvedExes := r.2,
    trace := f.trace ++ [Event.parse Section.approvedExes r.1] }

/-! ## `ParseFromXml` -/

/-- The statements of `ParseFromXml` between its declarations and `LExit:`
(manifest.cpp lines 64-157), in source order; `Except.error` is a jump to
`LExit`. -/
def ParseFromXml.body {T : Slices} (env : Env T) (pixdDocument : IXMLDOMDocument)
    (f : Frame T) : Except (Frame T) (Frame T) := do
  -- get bundle element
  let f ← ExitOnFailure (doGetDocumentElement env pixdDocument f)
  -- parse the log element, if present.
  let f ← ExitOnFailure (doSelectLog env f)
  let f ← (if S_OK = f.hr then do
    let f := doGetLogPathVariable env f
    let f ← (if E_NOTFOUND ≠ f.hr then ExitOnFailure f else pure f)
    let f ← ExitOnFailure (doGetLogPrefix env f)
    ExitOnFailure (doGetLogExtension env f)
  else pure f)
  -- get the chain element
  let f ← ExitOnFailure (doSelectChain env f)
  let f ← (if S_OK = f.hr then do
    -- parse disable rollback
    let f := doGetDisableRollback env f
    let f ← (if E_NOTFOUND ≠ f.hr then ExitOnFailure f else pure f)
    -- parse disable system restore
    let f := doGetDisableSystemRestore env f
    let f ← (if E_NOTFOUND ≠ f.hr then ExitOnFailure f else pure f)
    -- parse parallel cache
    let f := doGetParallelCache env f
    (if E_NOTFOUND ≠ f.hr then ExitOnFailure f else pure f)
  else pure f)
  -- parse built-in condition
  let f ← ExitOnFailure (doConditionGlobalParseFromXml env f)
  -- parse variables
  let f ← ExitOnFailure (doVariablesParseFromXml env f)
  -- parse user experience
  let f ← ExitOnFailure (doUserExperienceParseFromXml env f)
  -- parse extensions
  let f ← ExitOnFailure (doBurnExtensionParseFromXml env f)
  -- parse searches
  let f ← ExitOnFailure (doSearchesParseFromXml env f)
  -- parse registration
  let f ← ExitOnFailure (doRegistrationParseFromXml env f)
  -- parse update
  let f ← ExitOnFailure (doUpdateParseFromXml env f)
  -- parse containers
  let f ← ExitOnFailure (doContainersParseFromXml env f)
  -- parse payloads
  let f ← ExitOnFailure (doPayloadsParseFromXml env f)
  -- parse packages
  let f ← ExitOnFailure (doPackagesParseFromXml env f)
  -- parse approved exes for elevation
  ExitOnFailure (doApprovedExesParseFromXml env f)

/-- The frame that reaches `LExit`, by falling through or by a jump. -/
def atLExit {T : Slices} (r : Except (Frame T) (Frame T)) : Frame T :=
  match r with
  | Except.ok f => f
  | Except.error f => f

/-- What a call leaves behind: the returned code, the engine state, and the
trace of the call. -/
structure Outcome (T : Slices) where
  hr : HRESULT
  engine : BURN_ENGINE_STATE T
  trace : List Event

/-- The cleanup block of `ParseFromXml` (manifest.cpp lines 159-163):
`ReleaseObject(pixnChain); ReleaseObject(pixnLog); ReleaseObject(pixeBundle);
return hr;` -/
@[simps]
def ParseFromXml.LExit {T : Slices} (f : Frame T) : Outcome T :=
  { hr := f.hr, engine := f.engine,
    trace := f.trace ++ ReleaseObject f.pixnChain ++ ReleaseObject f.pixnLog
      ++ ReleaseObject f.pixeBundle }

/-- The declarations of `ParseFromXml` (manifest.cpp lines 59-62): `hr = S_OK`
and the three node pointers `NULL`. -/
@[simps]
def ParseFromXml.entry {T : Slices} (pEngineState : BURN_ENGINE_STATE T) : Frame T :=
  { hr := S_OK, pixeBundle := none, pixnLog := none, pixnChain := none,
    engine := pEngineState, trace := [] }

/-- The function `ParseFromXml` (manifest.cpp lines 54-164): the declarations,
the body, then the cleanup block. -/
def ParseFromXml {T : Slices} (env : Env T) (pixdDocument : IXMLDOMDocument)
    (pEngineState : BURN_ENGINE_STATE T) : Outcome T :=
  ParseFromXml.LExit (atLExit
    (ParseFromXml.body env pixdDocument (ParseFromXml.entry pEngineState)))

/-! ## Entry points -/

/-- The event of the document out-parameter receiving a non-NULL document. -/
def acquiredDocument (p : Option IXMLDOMDocument) : List Event :=
  match p with
  | some d => [Event.acquireDocument d]
  | none => []

/-- Modelled from the spec: `ReleaseObject(pixdDocument)`, which releases the
document when the pointer is not `NULL`; the macro is declared through
`precomp.h`. -/
def ReleaseDocument (p : Option IXMLDOMDocument) : List Event :=
  match p with
  | some d => [Event.releaseDocument d]
  | none => []

/-- The entry point `ManifestLoadXmlFromFile` (manifest.cpp lines 13-31).  On a
failed load the function jumps to `LExit`; otherwise it calls `ParseFromXml`,
which dereferences `pixdDocument`, so a load that reports success without handing out a document
has no defined outcome (`none`).  `LExit:` releases the document. -/
def ManifestLoadXmlFromFile {T : Slices} (env : Env T) (wzPath : String)
    (pEngineState : BURN_ENGINE_STATE T) : Option (Outcome T) :=
  -- load xml document
  let r := env.XmlLoadDocumentFromFile wzPath
  let pixdDocument := r.2
  let trace := Event.loadFromFile r.1 :: acquiredDocument pixdDocument
  if FAILED r.1 then
    some { hr := r.1, engine := pEngineState, trace := trace ++ ReleaseDocument pixdDocument }
  else
    match pixdDocument with
    | none => none
    | some d =>
      let o := ParseFromXml env d pEngineState
      some { hr := o.hr, engine := o.engine,
             trace := trace ++ o.trace ++ ReleaseDocument pixdDocument }

/-- The entry point `ManifestLoadXmlFromBuffer` (manifest.cpp lines 33-52); same
shape as `ManifestLoadXmlFromFile`, with the buffer loader. -/
def ManifestLoadXmlFromBuffer {T : Slices} (env : Env T) (pbBuffer : List Nat)
    (cbBuffer : Nat) (pEngineState : BURN_ENGINE_STATE T) : Option (Outcome T) :=
  -- load xml document
  let r := env.XmlLoadDocumentFromBuffer pbBuffer cbBuffer
  let pixdDocument := r.2
  let trace := Event.loadFromBuffer r.1 :: acquiredDocument pixdDocument
  if FAILED r.1 then
    some { hr := r.1, engine := pEngineState, trace := trace ++ ReleaseDocument pixdDocument }
  else
    match pixdDocument with
    | none => none
    | some d =>
      let o := ParseFromXml env d pEngineState
      some { hr := o.hr, engine := o.engine,
             trace := trace ++ o.trace ++ ReleaseDocument pixdDocument }

/-! ## The three blocks of the body (used by the proofs) -/

/-- Lines 64-85 of `ParseFromXml.body`: the bundle element and the optional
`Log` element. -/
def ParseFromXml.logPart {T : Slices} (env : Env T) (pixdDocument : IXMLDOMDocument)
    (f : Frame T) : Except (Frame T) (Frame T) := do
  let f ← ExitOnFailure (doGetDocumentElement env pixdDocument f)
  let f ← ExitOnFailure (doSelectLog env f)
  (if S_OK = f.hr then do
    let f := doGetLogPathVariable env f
    let f ← (if E_NOTFOUND ≠ f.hr then ExitOnFailure f else pure f)
    let f ← ExitOnFailure (doGetLogPrefix env f)
    ExitOnFailure (doGetLogExtension env f)
  else pure f)

/-- Lines 87-113 of `ParseFromXml.body`: the optional `Chain` element. -/
def ParseFromXml.chainPart {T : Slices} (env : Env T) (f : Frame T) :
    Except (Frame T) (Frame T) := do
  let f ← ExitOnFailure (doSelectChain env f)
  (if S_OK = f.hr then do
    let f := doGetDisableRollback env f
    let f ← (if E_NOTFOUND ≠ f.hr then ExitOnFailure f else pure f)
    let f := doGetDisableSystemRestore env f
    let f ← (if E_NOTFOUND ≠ f.hr then ExitOnFailure f else pure f)
    let f := doGetParallelCache env f
    (if E_NOTFOUND ≠ f.hr then ExitOnFailure f else pure f)
  else pure f)

/-- Lines 115-157 of `ParseFromXml.body`: the eleven section parsers. -/
def ParseFromXml.sectionsPart {T : Slices} (env : Env T) (f : Frame T) :
    Except (Frame T) (Frame T) := do
  let f ← ExitOnFailure (doConditionGlobalParseFromXml env f)
  let f ← ExitOnFailure (doVariablesParseFromXml env f)
  let f ← ExitOnFailure (doUserExperienceParseFromXml env f)
  let f ← ExitOnFailure (doBurnExtensionParseFromXml env f)
  let f ← ExitOnFailure (doSearchesParseFromXml env f)
  let f ← ExitOnFailure (doRegistrationParseFromXml env f)
  let f ← ExitOnFailure (doUpdateParseFromXml env f)
  let f ← ExitOnFailure (doContainersParseFromXml env f)
  let f ← ExitOnFailure (doPayloadsParseFromXml env f)
  let f ← ExitOnFailure (doPackagesParseFromXml env f)
  ExitOnFailure (doApprovedExesParseFromXml env f)

/-! ## Observations on traces -/

/-- The section whose parser the event is a call of. -/
@[simp]
def Event.asSection (e : Event) : Option Section :=
  match e with
  | Event.parse s _ => some s
  | _ => none

/-- The section parsers invoked, in invocation order. -/
def sectionsOf (tr : List Event) : List Section := tr.filterMap Event.asSection

/-- The element name the event is an `XmlSelectSingleNode` lookup of. -/
@[simp]
def Event.asLookup (e : Event) : Option String :=
  match e with
  | Event.selectSingleNode name _ => some name
  | _ => none

/-- The child elements looked up with `XmlSelectSingleNode`, in order. -/
def lookupsOf (tr : List Event) : List String := tr.filterMap Event.asLookup

/-- The attribute the event is an `XmlGetAttributeEx` read of. -/
@[simp]
def Event.asStringRead (e : Event) : Option String :=
  match e with
  | Event.getAttributeEx name _ => some name
  | _ => none

/-- The attributes read with `XmlGetAttributeEx`, in order. -/
def stringReadsOf (tr : List Event) : List String := tr.filterMap Event.asStringRead

/-- The attribute the event is an `XmlGetYesNoAttribute` read of. -/
@[simp]
def Event.asYesNoRead (e : Event) : Option String :=
  match e with
  | Event.getYesNoAttribute name _ => some name
  | _ => none

/-- The attributes read with `XmlGetYesNoAttribute`, in order. -/
def yesNoReadsOf (tr : List Event) : List String := tr.filterMap Event.asYesNoRead

/-- The code of a `get_documentElement` call. -/
@[simp]
def Event.asRootLookup (e : Event) : Option HRESULT :=
  match e with
  | Event.documentElement hr => some hr
  | _ => none

/-- The codes returned by `get_documentElement`: one per invocation of `ParseFromXml`. -/
def rootLookupsOf (tr : List Event) : List HRESULT := tr.filterMap Event.asRootLookup

/-- The node pointer the event hands out. -/
@[simp]
def Event.asAcquire (e : Event) : Option IXMLDOMNode :=
  match e with
  | Event.acquire n => some n
  | _ => none

/-- The node pointers handed out, in order. -/
def acquiresOf (tr : List Event) : List IXMLDOMNode := tr.filterMap Event.asAcquire

/-- The node pointer the event releases. -/
@[simp]
def Event.asRelease (e : Event) : Option IXMLDOMNode :=
  match e with
  | Event.release n => some n
  | _ => none

/-- The node pointers released, in order. -/
def releasesOf (tr : List Event) : List IXMLDOMNode := tr.filterMap Event.asRelease

/-- The document pointer the event hands out. -/
@[simp]
def Event.asDocumentAcquire (e : Event) : Option IXMLDOMDocument :=
  match e with
  | Event.acquireDocument d => some d
  | _ => none

/-- The document pointers handed out, in order. -/
def documentAcquiresOf (tr : List Event) : List IXMLDOMDocument :=
  tr.filterMap Event.asDocumentAcquire

/-- The document pointer the event releases. -/
@[simp]
def Event.asDocumentRelease (e : Event) : Option IXMLDOMDocument :=
  match e with
  | Event.releaseDocument d => some d
  | _ => none

/-- The document pointers released, in order. -/
def documentReleasesOf (tr : List Event) : List IXMLDOMDocument :=
  tr.filterMap Event.asDocumentRelease

/-- The code a call returned (`none` for the pointer events). -/
def Event.code (e : Event) : Option HRESULT :=
  match e with
  | Event.loadFromFile hr => some hr
  | Event.loadFromBuffer hr => some hr
  | Event.documentElement hr => some hr
  | Event.selectSingleNode _ hr => some hr
  | Event.getAttributeEx _ hr => some hr
  | Event.getYesNoAttribute _ hr => some hr
  | Event.parse _ hr => some hr
  | Event.acquireDocument _ => none
  | Event.releaseDocument _ => none
  | Event.acquire _ => none
  | Event.release _ => none

/-- A call whose result makes `ParseFromXml` jump to `LExit`: a failure code,
except `E_NOTFOUND` from the four reads that are guarded by
`if (E_NOTFOUND != hr)`. -/
def Event.fatal (e : Event) : Bool :=
  match e with
  | Event.getAttributeEx name hr =>
    FAILED hr && !(decide (name = "PathVariable") && decide (hr = E_NOTFOUND))
  | Event.getYesNoAttribute _ hr => FAILED hr && !decide (hr = E_NOTFOUND)
  | Event.documentElement hr => FAILED hr
  | Event.selectSingleNode _ hr => FAILED hr
  | Event.parse _ hr => FAILED hr
  | Event.loadFromFile hr => FAILED hr
  | Event.loadFromBuffer hr => FAILED hr
  | Event.acquireDocument _ => false
  | Event.releaseDocument _ => false
  | Event.acquire _ => false
  | Event.release _ => false

/-- The fixed order of the section parsers (spec section 4.2, step 4). -/
def sectionOrder : List Section :=
  [Section.condition, Section.variables, Section.userExperience, Section.extensions,
   Section.searches, Section.registration, Section.update, Section.containers,
   Section.payloads, Section.packages, Section.approvedExes]

/-! ## A test double for the collaborators

The accessors below follow the external interfaces of spec section 6 on a
two-level document (a bundle element and its children); the section parsers
return a chosen code and count the calls on their slice. -/

/-- A child element of the bundle element: its name and attributes. -/
structure TestElement where
  name : String
  attributes : List (String × String)
  deriving DecidableEq, Repr

/-- A document: `none` when it has no root element, otherwise the children of
the bundle element. -/
structure TestDocument where
  root : Option (List TestElement)
  deriving DecidableEq, Repr

/-- Modelled from the spec: the code of `MissingRootElement` and of a
`DocumentLoadError` in the test double (`E_FAIL`, `0x80004005`). -/
def E_FAIL : HRESULT := -2147467259

/-- Modelled from the spec: the code of a `LookupError`, in particular of a
boolean attribute that is not a canonical yes/no token (`E_INVALIDARG`,
`0x80070057`). -/
def E_INVALIDARG : HRESULT := -2147024809

/-- Node pointer of the bundle element in the test double. -/
def testBundle : IXMLDOMNode := 1

/-- Index of the first child called `name`, counting from `i`. -/
def findChild (name : String) (children : List TestElement) (i : Nat) : Option Nat :=
  match children with
  | [] => none
  | c :: cs => if c.name = name then some i else findChild name cs (i + 1)

/-- The child element a node pointer stands for (child `i` has pointer `i + 2`). -/
def TestDocument.element (doc : TestDocument) (p : Option IXMLDOMNode) : Option TestElement :=
  match doc.root, p with
  | some children, some n => if 2 ≤ n then children.get? (n - 2) else none
  | _, _ => none

/-- Modelled from the spec: `getDocumentRoot(doc) -> Element`, failing with
`MissingRootElement` when the document has no root element. -/
def specGetDocumentRoot (doc : TestDocument) : HRESULT × Option IXMLDOMNode :=
  match doc.root with
  | some _ => (S_OK, some testBundle)
  | none => (E_FAIL, none)

/-- Modelled from the spec: `selectOptionalChild(element, name) -> Element? |
LookupError`; absence is the non-error outcome `S_FALSE`. -/
def specSelectOptionalChild (doc : TestDocument) (p : Option IXMLDOMNode) (name : String) :
    HRESULT × Option IXMLDOMNode :=
  match doc.root, p with
  | some children, some 1 =>
    match findChild name children 0 with
    | some i => (S_OK, some (i + 2))
    | none => (S_FALSE, none)
  | _, _ => (E_INVALIDARG, none)

/-- Modelled from the spec: `getStringAttribute(element, name) -> String |
AttributeAbsent | LookupError`. -/
def specGetStringAttribute (doc : TestDocument) (p : Option IXMLDOMNode) (name : String) :
    HRESULT × Option String :=
  match doc.element p with
  | none => (E_INVALIDARG, none)
  | some e =>
    match e.attributes.lookup name with
    | some v => (S_OK, some v)
    | none => (E_NOTFOUND, none)

/-- Modelled from the spec: the value part of `getBooleanAttribute`, which
"accepts only canonical yes/no tokens". -/
def specYesNo (v : String) : HRESULT × Option BOOL :=
  if v = "yes" then (S_OK, some 1)
  else if v = "no" then (S_OK, some 0)
  else (E_INVALIDARG, none)

/-- Modelled from the spec: `getBooleanAttribute(element, name) -> Bool |
AttributeAbsent | LookupError`. -/
def specGetBooleanAttribute (doc : TestDocument) (p : Option IXMLDOMNode) (name : String) :
    HRESULT × Option BOOL :=
  match doc.element p with
  | none => (E_INVALIDARG, none)
  | some e =>
    match e.attributes.lookup name with
    | some v => specYesNo v
    | none => (E_NOTFOUND, none)

/-- Slices of the test double: every section slice is a call counter. -/
abbrev natSlices : Slices :=
  { BURN_CONDITION := Nat, BURN_VARIABLES := Nat, BURN_USER_EXPERIENCE_REST := Nat,
    BURN_PAYLOADS := Nat, BURN_EXTENSIONS := Nat, BURN_SEARCHES := Nat,
    BURN_REGISTRATION := Nat, BURN_CACHE := Nat, BURN_UPDATE := Nat,
    BURN_CONTAINERS := Nat, BURN_PACKAGES := Nat, BURN_APPROVED_EXES := Nat }

/-- The test double: document pointer `7` stands for `doc`, loading succeeds for
a non-empty path and a non-empty buffer, and the parser of section `s` returns
`code s` after bumping the slices it is handed. -/
def testEnv (doc : TestDocument) (code : Section → HRESULT) : Env natSlices :=
  { XmlLoadDocumentFromFile := fun wzPath =>
      if wzPath = "" then (E_FAIL, none) else (S_OK, some 7)
    XmlLoadDocumentFromBuffer := fun _ cbBuffer =>
      if cbBuffer = 0 then (E_FAIL, none) else (S_OK, some 7)
    get_documentElement := fun _ => specGetDocumentRoot doc
    XmlSelectSingleNode := specSelectOptionalChild doc
    XmlGetAttributeEx := specGetStringAttribute doc
    XmlGetYesNoAttribute := specGetBooleanAttribute doc
    ConditionGlobalParseFromXml := fun (c : Nat) _ => (code Section.condition, c + 1)
    VariablesParseFromXml := fun (v : Nat) _ => (code Section.variables, v + 1)
    UserExperienceParseFromXml := fun ux _ =>
      (code Section.userExperience, { payloads := ux.payloads, rest := (ux.rest : Nat) + 1 })
    BurnExtensionParseFromXml := fun (e : Nat) (p : Nat) _ =>
      (code Section.extensions, e + 1, p + 1)
    SearchesParseFromXml := fun (s : Nat) (e : Nat) _ => (code Section.searches, s + 1, e)
    RegistrationParseFromXml := fun (r : Nat) (c : Nat) _ =>
      (code Section.registration, r + 1, c)
    UpdateParseFromXml := fun (u : Nat) _ => (code Section.update, u + 1)
    ContainersParseFromXml := fun (c : Nat) _ => (code Section.containers, c + 1)
    PayloadsParseFromXml := fun (p : Nat) (c : Nat) (l : Nat) _ =>
      (code Section.payloads, p + 1, c, l + 1)
    PackagesParseFromXml := fun (k : Nat) (p : Nat) _ => (code Section.packages, k + 1, p)
    ApprovedExesParseFromXml := fun (a : Nat) _ => (code Section.approvedExes, a + 1) }

/-- Every section parser succeeds. -/
def allOk : Section → HRESULT := fun _ => S_OK

/-- Only the parser of section `s` fails, with `E_FAIL`. -/
def failingAt (s : Section) : Section → HRESULT := fun t => if t = s then E_FAIL else S_OK

/-- The engine state a caller supplies before loading: no log settings, flags
cleared, empty sections. -/
def emptyState : BURN_ENGINE_STATE natSlices :=
  { log := { sczPathVariable := none, sczPrefix := none, sczExtension := none }
    fDisableRollback := 0
    fParallelCacheAndExecute := 0
    internalCommand := { fDisableSystemRestore := 0 }
    condition := (0 : Nat)
    variables_ := (0 : Nat)
    userExperience := { payloads := (0 : Nat), rest := (0 : Nat) }
    extensions := (0 : Nat)
    searches := (0 : Nat)
    registration := (0 : Nat)
    cache := (0 : Nat)
    update := (0 : Nat)
    containers := (0 : Nat)
    payloads := (0 : Nat)
    layoutPayloads := (0 : Nat)
    packages := (0 : Nat)
    approvedExes := (0 : Nat) }

/-- A complete manifest: `Log` with its three attributes and `Chain` with its
three flags. -/
def fullDocument : TestDocument :=
  { root := some
      [ { name := "Log",
          attributes := [("PathVariable", "WixBundleLog"), ("Prefix", "Setup"),
                         ("Extension", "log")] },
        { name := "Chain",
          attributes := [("DisableRollback", "yes"), ("DisableSystemRestore", "no"),
                         ("ParallelCache", "yes")] } ] }

/-- A document without a root element. -/
def noRoot : TestDocument := { root := none }

/-- A bundle element without `Log` and `Chain` children. -/
def emptyBundle : TestDocument := { root := some [] }

/-- A `Log` element lacking `PathVariable`. -/
def logWithoutPathVariable : TestDocument :=
  { root := some
      [ { name := "Log", attributes := [("Prefix", "Setup"), ("Extension", "log")] } ] }

/-- A `Log` element that has `PathVariable` and lacks `Prefix`. -/
def logWithoutPrefix : TestDocument :=
  { root := some
      [ { name := "Log",
          attributes := [("PathVariable", "WixBundleLog"), ("Extension", "log")] } ] }

/-- A `Chain` element whose `DisableRollback` is not a yes/no token. -/
def chainWithMaybe : TestDocument :=
  { root := some [ { name := "Chain", attributes := [("DisableRollback", "maybe")] } ] }

/-- A `Chain` element without attributes. -/
def chainWithoutFlags : TestDocument :=
  { root := some [ { name := "Chain", attributes := [] } ] }

/-- The test double with the lookup of child `name` failing with a `LookupError`. -/
def failingLookup (name : String) (doc : TestDocument) (code : Section → HRESULT) :
    Env natSlices :=
  { testEnv doc code with
    XmlSelectSingleNode := fun p n =>
      if n = name then (E_FAIL, none) else specSelectOptionalChild doc p n }

/-! ## Predicates used by the proofs -/

/-- The parse event of a section together with the code its parser returned. -/
def parseEvent (p : Section × HRESULT) : Event := Event.parse p.1 p.2

/-- Frame `g` has the pointers, the log settings and the three flags of `f`. -/
def Preserved {T : Slices} (f g : Frame T) : Prop :=
  g.pixeBundle = f.pixeBundle ∧ g.pixnLog = f.pixnLog ∧ g.pixnChain = f.pixnChain ∧
  g.engine.log = f.engine.log ∧
  g.engine.fDisableRollback = f.engine.fDisableRollback ∧
  g.engine.internalCommand = f.engine.internalCommand ∧
  g.engine.fParallelCacheAndExecute = f.engine.fParallelCacheAndExecute

/-- Frame `g` is reached from `f` by running the parsers of `rest` in order up
to the first failure: the trace grows by the parse events `evs`, every parser
but the last invoked one succeeded, `hr` is the code of the last one, and
when that is a success all of `rest` was run. -/
def SectionRun {T : Slices} (rest : List Section) (f g : Frame T) : Prop :=
  ∃ evs : List (Section × HRESULT),
    g.trace = f.trace ++ evs.map parseEvent ∧
    evs.map Prod.fst = rest.take evs.length ∧
    evs ≠ [] ∧
    (∀ p ∈ evs.dropLast, FAILED p.2 = false) ∧
    (evs.map Prod.snd).getLast? = some g.hr ∧
    (FAILED g.hr = false → evs.length = rest.length)

/-- The frame at `LExit` when the sections block is entered with frame `f`. -/
def sectionsExit {T : Slices} (env : Env T) (f : Frame T) : Frame T :=
  atLExit (ParseFromXml.sectionsPart env f)

/-- The frame at `LExit` when the `Chain` block is entered with frame `f`. -/
def chainExit {T : Slices} (env : Env T) (f : Frame T) : Frame T :=
  atLExit (ParseFromXml.chainPart env f >>= ParseFromXml.sectionsPart env)

/-- The test of a read guarded by `if (E_NOTFOUND != hr) { ExitOnFailure(hr) }`. -/
def fatalUnlessNotFound (hr : HRESULT) : Prop := E_NOTFOUND ≠ hr ∧ FAILED hr = true

instance (hr : HRESULT) : Decidable (fatalUnlessNotFound hr) := by
  unfold fatalUnlessNotFound
  infer_instance

/-- The frame at `LExit` of a call `ParseFromXml(pixdDocument, pEngineState)`. -/
def bodyExit {T : Slices} (env : Env T) (pixdDocument : IXMLDOMDocument)
    (pEngineState : BURN_ENGINE_STATE T) : Frame T :=
  atLExit (ParseFromXml.body env pixdDocument (ParseFromXml.entry pEngineState))

/-! ## What the collaborators answer for a document -/

/-- The bundle element `get_documentElement` hands out for document `d`. -/
def Env.bundle {T : Slices} (env : Env T) (d : IXMLDOMDocument) : Option IXMLDOMNode :=
  (env.get_documentElement d).2

/-- The answer of the lookup of child `name` of the bundle element of `d`. -/
def Env.child {T : Slices} (env : Env T) (d : IXMLDOMDocument) (name : String) :
    HRESULT × Option IXMLDOMNode :=
  env.XmlSelectSingleNode (env.bundle d) name

/-- The answer of the string accessor for attribute `name` of the `Log` element. -/
def Env.logAttribute {T : Slices} (env : Env T) (d : IXMLDOMDocument) (name : String) :
    HRESULT × Option String :=
  env.XmlGetAttributeEx (env.child d "Log").2 name

/-- The answer of the yes/no accessor for attribute `name` of the `Chain` element. -/
def Env.chainAttribute {T : Slices} (env : Env T) (d : IXMLDOMDocument) (name : String) :
    HRESULT × Option BOOL :=
  env.XmlGetYesNoAttribute (env.child d "Chain").2 name

/-! ## Control flow: `ExitOnFailure`, `LExit` and the three blocks -/

theorem atLExit_exit {T : Slices} (g : Frame T) : atLExit (ExitOnFailure g) = g := by
  unfold ExitOnFailure
  split <;> rfl

theorem atLExit_exit_bind {T : Slices} (g : Frame T) (k : Frame T → Except (Frame T) (Frame T)) :
    atLExit (ExitOnFailure g >>= k) = if FAILED g.hr = true then g else atLExit (k g) := by
  unfold ExitOnFailure
  split <;> rfl

theorem body_eq {T : Slices} (env : Env T) (d : IXMLDOMDocument) (f : Frame T) :
    ParseFromXml.body env d f =
      ParseFromXml.logPart env d f >>= fun a =>
        ParseFromXml.chainPart env a >>= ParseFromXml.sectionsPart env := by
  unfold ParseFromXml.body ParseFromXml.logPart ParseFromXml.chainPart
    ParseFromXml.sectionsPart
  simp only [bind_assoc]

/-! ## Observations on traces: rewriting rules -/

@[simp]
theorem sectionsOf_nil : sectionsOf [] = [] := rfl

@[simp]
theorem sectionsOf_append (a b : List Event) :
    sectionsOf (a ++ b) = sectionsOf a ++ sectionsOf b := by
  simp [sectionsOf]

@[simp]
theorem sectionsOf_cons (e : Event) (l : List Event) :
    sectionsOf (e :: l) = e.asSection.toList ++ sectionsOf l := by
  cases e <;> rfl

@[simp]
theorem sectionsOf_acquired (p : Option Nat) : sectionsOf (acquired p) = [] := by
  cases p <;> rfl

@[simp]
theorem sectionsOf_ReleaseObject (p : Option Nat) : sectionsOf (ReleaseObject p) = [] := by
  cases p <;> rfl

@[simp]
theorem sectionsOf_acquiredDocument (p : Option Nat) :
    sectionsOf (acquiredDocument p) = [] := by
  cases p <;> rfl

@[simp]
theorem sectionsOf_ReleaseDocument (p : Option Nat) :
    sectionsOf (ReleaseDocument p) = [] := by
  cases p <;> rfl

@[simp]
theorem sectionsOf_parseEvents (evs : List (Section × HRESULT)) :
    sectionsOf (evs.map parseEvent) = evs.map Prod.fst := by
  induction evs with
  | nil => rfl
  | cons p ps ih => simp [parseEvent, Event.asSection, ih]

@[simp]
theorem lookupsOf_nil : lookupsOf [] = [] := rfl

@[simp]
theorem lookupsOf_append (a b : List Event) :
    lookupsOf (a ++ b) = lookupsOf a ++ lookupsOf b := by
  simp [lookupsOf]

@[simp]
theorem lookupsOf_cons (e : Event) (l : List Event) :
    lookupsOf (e :: l) = e.asLookup.toList ++ lookupsOf l := by
  cases e <;> rfl

@[simp]
theorem lookupsOf_acquired (p : Option Nat) : lookupsOf (acquired p) = [] := by
  cases p <;> rfl

@[simp]
theorem lookupsOf_ReleaseObject (p : Option Nat) : lookupsOf (ReleaseObject p) = [] := by
  cases p <;> rfl

@[simp]
theorem lookupsOf_acquiredDocument (p : Option Nat) :
    lookupsOf (acquiredDocument p) = [] := by
  cases p <;> rfl

@[simp]
theorem lookupsOf_ReleaseDocument (p : Option Nat) :
    lookupsOf (ReleaseDocument p) = [] := by
  cases p <;> rfl

@[simp]
theorem lookupsOf_parseEvents (evs : List (Section × HRESULT)) :
    lookupsOf (evs.map parseEvent) = [] := by
  induction evs with
  | nil => rfl
  | cons p ps ih => simp [parseEvent, Event.asLookup, ih]

@[simp]
theorem stringReadsOf_nil : stringReadsOf [] = [] := rfl

@[simp]
theorem stringReadsOf_append (a b : List Event) :
    stringReadsOf (a ++ b) = stringReadsOf a ++ stringReadsOf b := by
  simp [stringReadsOf]

@[simp]
theorem stringReadsOf_cons (e : Event) (l : List Event) :
    stringReadsOf (e :: l) = e.asStringRead.toList ++ stringReadsOf l := by
  cases e <;> rfl

@[simp]
theorem stringReadsOf_acquired (p : Option Nat) : stringReadsOf (acquired p) = [] := by
  cases p <;> rfl

@[simp]
theorem stringReadsOf_ReleaseObject (p : Option Nat) :
    stringReadsOf (ReleaseObject p) = [] := by
  cases p <;> rfl

@[simp]
theorem stringReadsOf_acquiredDocument (p : Option Nat) :
    stringReadsOf (acquiredDocument p) = [] := by
  cases p <;> rfl

@[simp]
theorem stringReadsOf_ReleaseDocument (p : Option Nat) :
    stringReadsOf (ReleaseDocument p) = [] := by
  cases p <;> rfl

@[simp]
theorem stringReadsOf_parseEvents (evs : List (Section × HRESULT)) :
    stringReadsOf (evs.map parseEvent) = [] := by
  induction evs with
  | nil => rfl
  | cons p ps ih => simp [parseEvent, Event.asStringRead, ih]

@[simp]
theorem yesNoReadsOf_nil : yesNoReadsOf [] = [] := rfl

@[simp]
theorem yesNoReadsOf_append (a b : List Event) :
    yesNoReadsOf (a ++ b) = yesNoReadsOf a ++ yesNoReadsOf b := by
  simp [yesNoReadsOf]

@[simp]
theorem yesNoReadsOf_cons (e : Event) (l : List Event) :
    yesNoReadsOf (e :: l) = e.asYesNoRead.toList ++ yesNoReadsOf l := by
  cases e <;> rfl

@[simp]
theorem yesNoReadsOf_acquired (p : Option Nat) : yesNoReadsOf (acquired p) = [] := by
  cases p <;> rfl

@[simp]
theorem yesNoReadsOf_ReleaseObject (p : Option Nat) :
    yesNoReadsOf (ReleaseObject p) = [] := by
  cases p <;> rfl

@[simp]
theorem yesNoReadsOf_acquiredDocument (p : Option Nat) :
    yesNoReadsOf (acquiredDocument p) = [] := by
  cases p <;> rfl

@[simp]
theorem yesNoReadsOf_ReleaseDocument (p : Option Nat) :
    yesNoReadsOf (ReleaseDocument p) = [] := by
  cases p <;> rfl

@[simp]
theorem yesNoReadsOf_parseEvents (evs : List (Section × HRESULT)) :
    yesNoReadsOf (evs.map parseEvent) = [] := by
  induction evs with
  | nil => rfl
  | cons p ps ih => simp [parseEvent, Event.asYesNoRead, ih]

@[simp]
theorem rootLookupsOf_nil : rootLookupsOf [] = [] := rfl

@[simp]
theorem rootLookupsOf_append (a b : List Event) :
    rootLookupsOf (a ++ b) = rootLookupsOf a ++ rootLookupsOf b := by
  simp [rootLookupsOf]

@[simp]
theorem rootLookupsOf_cons (e : Event) (l : List Event) :
    rootLookupsOf (e :: l) = e.asRootLookup.toList ++ rootLookupsOf l := by
  cases e <;> rfl

@[simp]
theorem rootLookupsOf_acquired (p : Option Nat) : rootLookupsOf (acquired p) = [] := by
  cases p <;> rfl

@[simp]
theorem rootLookupsOf_ReleaseObject (p : Option Nat) :
    rootLookupsOf (ReleaseObject p) = [] := by
  cases p <;> rfl

@[simp]
theorem rootLookupsOf_acquiredDocument (p : Option Nat) :
    rootLookupsOf (acquiredDocument p) = [] := by
  cases p <;> rfl

@[simp]
theorem rootLookupsOf_ReleaseDocument (p : Option Nat) :
    rootLookupsOf (ReleaseDocument p) = [] := by
  cases p <;> rfl

@[simp]
theorem rootLookupsOf_parseEvents (evs : List (Section × HRESULT)) :
    rootLookupsOf (evs.map parseEvent) = [] := by
  induction evs with
  | nil => rfl
  | cons p ps ih => simp [parseEvent, Event.asRootLookup, ih]

@[simp]
theorem acquiresOf_nil : acquiresOf [] = [] := rfl

@[simp]
theorem acquiresOf_append (a b : List Event) :
    acquiresOf (a ++ b) = acquiresOf a ++ acquiresOf b := by
  simp [acquiresOf]

@[simp]
theorem acquiresOf_cons (e : Event) (l : List Event) :
    acquiresOf (e :: l) = e.asAcquire.toList ++ acquiresOf l := by
  cases e <;> rfl

@[simp]
theorem acquiresOf_acquired (p : Option Nat) : acquiresOf (acquired p) = p.toList := by
  cases p <;> rfl

@[simp]
theorem acquiresOf_ReleaseObject (p : Option Nat) : acquiresOf (ReleaseObject p) = [] := by
  cases p <;> rfl

@[simp]
theorem acquiresOf_acquiredDocument (p : Option Nat) :
    acquiresOf (acquiredDocument p) = [] := by
  cases p <;> rfl

@[simp]
theorem acquiresOf_ReleaseDocument (p : Option Nat) :
    acquiresOf (ReleaseDocument p) = [] := by
  cases p <;> rfl

@[simp]
theorem acquiresOf_parseEvents (evs : List (Section × HRESULT)) :
    acquiresOf (evs.map parseEvent) = [] := by
  induction evs with
  | nil => rfl
  | cons p ps ih => simp [parseEvent, Event.asAcquire, ih]

@[simp]
theorem releasesOf_nil : releasesOf [] = [] := rfl

@[simp]
theorem releasesOf_append (a b : List Event) :
    releasesOf (a ++ b) = releasesOf a ++ releasesOf b := by
  simp [releasesOf]

@[simp]
theorem releasesOf_cons (e : Event) (l : List Event) :
    releasesOf (e :: l) = e.asRelease.toList ++ releasesOf l := by
  cases e <;> rfl

@[simp]
theorem releasesOf_acquired (p : Option Nat) : releasesOf (acquired p) = [] := by
  cases p <;> rfl

@[simp]
theorem releasesOf_ReleaseObject (p : Option Nat) :
    releasesOf (ReleaseObject p) = p.toList := by
  cases p <;> rfl

@[simp]
theorem releasesOf_acquiredDocument (p : Option Nat) :
    releasesOf (acquiredDocument p) = [] := by
  cases p <;> rfl

@[simp]
theorem releasesOf_ReleaseDocument (p : Option Nat) :
    releasesOf (ReleaseDocument p) = [] := by
  cases p <;> rfl

@[simp]
theorem releasesOf_parseEvents (evs : List (Section × HRESULT)) :
    releasesOf (evs.map parseEvent) = [] := by
  induction evs with
  | nil => rfl
  | cons p ps ih => simp [parseEvent, Event.asRelease, ih]

@[simp]
theorem documentAcquiresOf_nil : documentAcquiresOf [] = [] := rfl

@[simp]
theorem documentAcquiresOf_append (a b : List Event) :
    documentAcquiresOf (a ++ b) = documentAcquiresOf a ++ documentAcquiresOf b := by
  simp [documentAcquiresOf]

@[simp]
theorem documentAcquiresOf_cons (e : Event) (l : List Event) :
    documentAcquiresOf (e :: l) = e.asDocumentAcquire.toList ++ documentAcquiresOf l := by
  cases e <;> rfl

@[simp]
theorem documentAcquiresOf_acquired (p : Option Nat) :
    documentAcquiresOf (acquired p) = [] := by
  cases p <;> rfl

@[simp]
theorem documentAcquiresOf_ReleaseObject (p : Option Nat) :
    documentAcquiresOf (ReleaseObject p) = [] := by
  cases p <;> rfl

@[simp]
theorem documentAcquiresOf_acquiredDocument (p : Option Nat) :
    documentAcquiresOf (acquiredDocument p) = p.toList := by
  cases p <;> rfl

@[simp]
theorem documentAcquiresOf_ReleaseDocument (p : Option Nat) :
    documentAcquiresOf (ReleaseDocument p) = [] := by
  cases p <;> rfl

@[simp]
theorem documentAcquiresOf_parseEvents (evs : List (Section × HRESULT)) :
    documentAcquiresOf (evs.map parseEvent) = [] := by
  induction evs with
  | nil => rfl
  | cons p ps ih => simp [parseEvent, Event.asDocumentAcquire, ih]

@[simp]
theorem documentReleasesOf_nil : documentReleasesOf [] = [] := rfl

@[simp]
theorem documentReleasesOf_append (a b : List Event) :
    documentReleasesOf (a ++ b) = documentReleasesOf a ++ documentReleasesOf b := by
  simp [documentReleasesOf]

@[simp]
theorem documentReleasesOf_cons (e : Event) (l : List Event) :
    documentReleasesOf (e :: l) = e.asDocumentRelease.toList ++ documentReleasesOf l := by
  cases e <;> rfl

@[simp]
theorem documentReleasesOf_acquired (p : Option Nat) :
    documentReleasesOf (acquired p) = [] := by
  cases p <;> rfl

@[simp]
theorem documentReleasesOf_ReleaseObject (p : Option Nat) :
    documentReleasesOf (ReleaseObject p) = [] := by
  cases p <;> rfl

@[simp]
theorem documentReleasesOf_acquiredDocument (p : Option Nat) :
    documentReleasesOf (acquiredDocument p) = [] := by
  cases p <;> rfl

@[simp]
theorem documentReleasesOf_ReleaseDocument (p : Option Nat) :
    documentReleasesOf (ReleaseDocument p) = p.toList := by
  cases p <;> rfl

@[simp]
theorem documentReleasesOf_parseEvents (evs : List (Section × HRESULT)) :
    documentReleasesOf (evs.map parseEvent) = [] := by
  induction evs with
  | nil => rfl
  | cons p ps ih => simp [parseEvent, Event.asDocumentRelease, ih]

/-! ## The sections block -/

theorem preserved_trans {T : Slices} {f g h : Frame T} (h₁ : Preserved f g)
    (h₂ : Preserved g h) : Preserved f h := by
  obtain ⟨a1, a2, a3, a4, a5, a6, a7⟩ := h₁
  obtain ⟨b1, b2, b3, b4, b5, b6, b7⟩ := h₂
  exact ⟨b1.trans a1, b2.trans a2, b3.trans a3, b4.trans a4, b5.trans a5, b6.trans a6,
    b7.trans a7⟩

theorem preserved_step {T : Slices} {f g h : Frame T} (c : Prop) [Decidable c]
    (h₁ : Preserved f g) (h₂ : Preserved g h) : Preserved f (if c then g else h) := by
  split
  · exact h₁
  · exact preserved_trans h₁ h₂

theorem sectionRun_last {T : Slices} {s : Section} {f g : Frame T}
    (hg : g.trace = f.trace ++ [Event.parse s g.hr]) : SectionRun [s] f g := by
  refine ⟨[(s, g.hr)], ?_, ?_, ?_, ?_, ?_, ?_⟩
  · simpa [parseEvent] using hg
  · simp
  · simp
  · simp
  · simp
  · simp

theorem sectionRun_step {T : Slices} {s : Section} {rest : List Section} {f g h : Frame T}
    (hg : g.trace = f.trace ++ [Event.parse s g.hr])
    (hh : SectionRun rest g h) :
    SectionRun (s :: rest) f (if FAILED g.hr = true then g else h) := by
  by_cases hf : FAILED g.hr = true
  · rw [if_pos hf]
    refine ⟨[(s, g.hr)], ?_, ?_, ?_, ?_, ?_, ?_⟩
    · simpa [parseEvent] using hg
    · simp
    · simp
    · simp
    · simp
    · intro hc
      rw [hf] at hc
      exact absurd hc (by simp)
  · rw [if_neg hf]
    obtain ⟨evs, h1, h2, h3, h4, h5, h6⟩ := hh
    refine ⟨(s, g.hr) :: evs, ?_, ?_, ?_, ?_, ?_, ?_⟩
    · rw [h1, hg]
      simp [parseEvent]
    · simp [h2]
    · simp
    · intro p hp
      obtain ⟨e, es, rfl⟩ := List.exists_cons_of_ne_nil h3
      rw [List.dropLast_cons₂] at hp
      rcases List.mem_cons.1 hp with rfl | hp
      · simpa using hf
      · exact h4 p hp
    · obtain ⟨e, es, rfl⟩ := List.exists_cons_of_ne_nil h3
      simpa [List.getLast?_cons_cons] using h5
    · intro hc
      simp [h6 hc]

theorem sectionsPart_run {T : Slices} (env : Env T) (f : Frame T) :
    SectionRun sectionOrder f (atLExit (ParseFromXml.sectionsPart env f)) := by
  unfold ParseFromXml.sectionsPart sectionOrder
  simp only [atLExit_exit_bind, atLExit_exit]
  refine sectionRun_step (by simp) ?_
  refine sectionRun_step (by simp) ?_
  refine sectionRun_step (by simp) ?_
  refine sectionRun_step (by simp) ?_
  refine sectionRun_step (by simp) ?_
  refine sectionRun_step (by simp) ?_
  refine sectionRun_step (by simp) ?_
  refine sectionRun_step (by simp) ?_
  refine sectionRun_step (by simp) ?_
  refine sectionRun_step (by simp) ?_
  exact sectionRun_last (by simp)

theorem sectionsPart_preserved {T : Slices} (env : Env T) (f : Frame T) :
    Preserved f (atLExit (ParseFromXml.sectionsPart env f)) := by
  unfold ParseFromXml.sectionsPart
  simp only [atLExit_exit_bind, atLExit_exit]
  refine preserved_step _ (by simp [Preserved]) ?_
  refine preserved_step _ (by simp [Preserved]) ?_
  refine preserved_step _ (by simp [Preserved]) ?_
  refine preserved_step _ (by simp [Preserved]) ?_
  refine preserved_step _ (by simp [Preserved]) ?_
  refine preserved_step _ (by simp [Preserved]) ?_
  refine preserved_step _ (by simp [Preserved]) ?_
  refine preserved_step _ (by simp [Preserved]) ?_
  refine preserved_step _ (by simp [Preserved]) ?_
  refine preserved_step _ (by simp [Preserved]) ?_
  simp [Preserved]

theorem atLExit_guard_bind {T : Slices} (g : Frame T)
    (k : Frame T → Except (Frame T) (Frame T)) :
    atLExit ((if E_NOTFOUND ≠ g.hr then ExitOnFailure g else pure g) >>= k) =
      if fatalUnlessNotFound g.hr then g else atLExit (k g) := by
  unfold fatalUnlessNotFound ExitOnFailure
  by_cases h1 : E_NOTFOUND ≠ g.hr <;> by_cases h2 : FAILED g.hr = true <;> simp [h1, h2] <;> rfl

theorem chainExit_eq {T : Slices} (env : Env T) (a : Frame T) :
    chainExit env a =
      if FAILED (doSelectChain env a).hr = true then doSelectChain env a
      else if S_OK = (doSelectChain env a).hr then
        if fatalUnlessNotFound (doGetDisableRollback env (doSelectChain env a)).hr then
          doGetDisableRollback env (doSelectChain env a)
        else if fatalUnlessNotFound (doGetDisableSystemRestore env
            (doGetDisableRollback env (doSelectChain env a))).hr then
          doGetDisableSystemRestore env (doGetDisableRollback env (doSelectChain env a))
        else if fatalUnlessNotFound (doGetParallelCache env (doGetDisableSystemRestore env
            (doGetDisableRollback env (doSelectChain env a)))).hr then
          doGetParallelCache env (doGetDisableSystemRestore env
            (doGetDisableRollback env (doSelectChain env a)))
        else sectionsExit env (doGetParallelCache env (doGetDisableSystemRestore env
            (doGetDisableRollback env (doSelectChain env a))))
      else sectionsExit env (doSelectChain env a) := by
  unfold chainExit ParseFromXml.chainPart sectionsExit
  simp only [bind_assoc, atLExit_exit_bind]
  by_cases h0 : FAILED (doSelectChain env a).hr = true
  · simp only [h0, if_true]
  · simp only [h0, if_false]
    by_cases h1 : S_OK = (doSelectChain env a).hr
    · simp only [h1, if_true, bind_assoc, atLExit_guard_bind]
    · simp only [h1, if_false, pure_bind]

theorem bodyExit_eq {T : Slices} (env : Env T) (d : IXMLDOMDocument) (f : Frame T) :
    atLExit (ParseFromXml.body env d f) =
      if FAILED (doGetDocumentElement env d f).hr = true then doGetDocumentElement env d f
      else if FAILED (doSelectLog env (doGetDocumentElement env d f)).hr = true then
        doSelectLog env (doGetDocumentElement env d f)
      else if S_OK = (doSelectLog env (doGetDocumentElement env d f)).hr then
        if fatalUnlessNotFound (doGetLogPathVariable env
            (doSelectLog env (doGetDocumentElement env d f))).hr then
          doGetLogPathVariable env (doSelectLog env (doGetDocumentElement env d f))
        else if FAILED (doGetLogPrefix env (doGetLogPathVariable env
            (doSelectLog env (doGetDocumentElement env d f)))).hr = true then
          doGetLogPrefix env (doGetLogPathVariable env
            (doSelectLog env (doGetDocumentElement env d f)))
        else if FAILED (doGetLogExtension env (doGetLogPrefix env (doGetLogPathVariable env
            (doSelectLog env (doGetDocumentElement env d f))))).hr = true then
          doGetLogExtension env (doGetLogPrefix env (doGetLogPathVariable env
            (doSelectLog env (doGetDocumentElement env d f))))
        else chainExit env (doGetLogExtension env (doGetLogPrefix env
          (doGetLogPathVariable env (doSelectLog env (doGetDocumentElement env d f)))))
      else chainExit env (doSelectLog env (doGetDocumentElement env d f)) := by
  rw [body_eq]
  unfold ParseFromXml.logPart chainExit
  simp only [bind_assoc, atLExit_exit_bind]
  by_cases h0 : FAILED (doGetDocumentElement env d f).hr = true
  · simp only [h0, if_true]
  · simp only [h0, if_false]
    by_cases h1 : FAILED (doSelectLog env (doGetDocumentElement env d f)).hr = true
    · simp only [h1, if_true]
    · simp only [h1, if_false]
      by_cases h2 : S_OK = (doSelectLog env (doGetDocumentElement env d f)).hr
      · simp only [h2, if_true, bind_assoc, atLExit_guard_bind, atLExit_exit_bind]
      · simp only [h2, if_false, pure_bind]

/-! ## Frames at `LExit`: what the sections block leaves unchanged -/

theorem sectionsExit_run {T : Slices} (env : Env T) (x : Frame T) :
    SectionRun sectionOrder x (sectionsExit env x) :=
  sectionsPart_run env x

theorem sectionsExit_preserved {T : Slices} (env : Env T) (x : Frame T) :
    Preserved x (sectionsExit env x) :=
  sectionsPart_preserved env x

@[simp]
theorem sectionsExit_pixeBundle {T : Slices} (env : Env T) (x : Frame T) :
    (sectionsExit env x).pixeBundle = x.pixeBundle :=
  (sectionsExit_preserved env x).1

@[simp]
theorem sectionsExit_pixnLog {T : Slices} (env : Env T) (x : Frame T) :
    (sectionsExit env x).pixnLog = x.pixnLog :=
  (sectionsExit_preserved env x).2.1

@[simp]
theorem sectionsExit_pixnChain {T : Slices} (env : Env T) (x : Frame T) :
    (sectionsExit env x).pixnChain = x.pixnChain :=
  (sectionsExit_preserved env x).2.2.1

@[simp]
theorem sectionsExit_log {T : Slices} (env : Env T) (x : Frame T) :
    (sectionsExit env x).engine.log = x.engine.log :=
  (sectionsExit_preserved env x).2.2.2.1

@[simp]
theorem sectionsExit_fDisableRollback {T : Slices} (env : Env T) (x : Frame T) :
    (sectionsExit env x).engine.fDisableRollback = x.engine.fDisableRollback :=
  (sectionsExit_preserved env x).2.2.2.2.1

@[simp]
theorem sectionsExit_internalCommand {T : Slices} (env : Env T) (x : Frame T) :
    (sectionsExit env x).engine.internalCommand = x.engine.internalCommand :=
  (sectionsExit_preserved env x).2.2.2.2.2.1

@[simp]
theorem sectionsExit_fParallelCacheAndExecute {T : Slices} (env : Env T)
    (x : Frame T) :
    (sectionsExit env x).engine.fParallelCacheAndExecute =
      x.engine.fParallelCacheAndExecute :=
  (sectionsExit_preserved env x).2.2.2.2.2.2

@[simp]
theorem sectionsExit_lookupsOf {T : Slices} (env : Env T) (x : Frame T) :
    lookupsOf (sectionsExit env x).trace = lookupsOf x.trace := by
  obtain ⟨evs, h, -⟩ := sectionsExit_run env x
  simp [h]

@[simp]
theorem sectionsExit_stringReadsOf {T : Slices} (env : Env T) (x : Frame T) :
    stringReadsOf (sectionsExit env x).trace = stringReadsOf x.trace := by
  obtain ⟨evs, h, -⟩ := sectionsExit_run env x
  simp [h]

@[simp]
theorem sectionsExit_yesNoReadsOf {T : Slices} (env : Env T) (x : Frame T) :
    yesNoReadsOf (sectionsExit env x).trace = yesNoReadsOf x.trace := by
  obtain ⟨evs, h, -⟩ := sectionsExit_run env x
  simp [h]

@[simp]
theorem sectionsExit_rootLookupsOf {T : Slices} (env : Env T) (x : Frame T) :
    rootLookupsOf (sectionsExit env x).trace = rootLookupsOf x.trace := by
  obtain ⟨evs, h, -⟩ := sectionsExit_run env x
  simp [h]

@[simp]
theorem sectionsExit_acquiresOf {T : Slices} (env : Env T) (x : Frame T) :
    acquiresOf (sectionsExit env x).trace = acquiresOf x.trace := by
  obtain ⟨evs, h, -⟩ := sectionsExit_run env x
  simp [h]

@[simp]
theorem sectionsExit_releasesOf {T : Slices} (env : Env T) (x : Frame T) :
    releasesOf (sectionsExit env x).trace = releasesOf x.trace := by
  obtain ⟨evs, h, -⟩ := sectionsExit_run env x
  simp [h]

@[simp]
theorem sectionsExit_documentAcquiresOf {T : Slices} (env : Env T) (x : Frame T) :
    documentAcquiresOf (sectionsExit env x).trace = documentAcquiresOf x.trace := by
  obtain ⟨evs, h, -⟩ := sectionsExit_run env x
  simp [h]

@[simp]
theorem sectionsExit_documentReleasesOf {T : Slices} (env : Env T) (x : Frame T) :
    documentReleasesOf (sectionsExit env x).trace = documentReleasesOf x.trace := by
  obtain ⟨evs, h, -⟩ := sectionsExit_run env x
  simp [h]

theorem sectionRun_sections {T : Slices} {rest : List Section} {f g : Frame T}
    (h : SectionRun rest f g) :
    ∃ n, 0 < n ∧ n ≤ rest.length ∧
      sectionsOf g.trace = sectionsOf f.trace ++ rest.take n ∧
      (FAILED g.hr = false → n = rest.length) := by
  obtain ⟨evs, h1, h2, h3, -, -, h6⟩ := h
  refine ⟨evs.length, List.length_pos.2 h3, ?_, ?_, h6⟩
  · have := congrArg List.length h2
    simp at this
    omega
  · simp [h1, h2]

theorem mem_sectionsOf_of_parse_mem {tr : List Event} {s : Section} {hr : HRESULT}
    (h : Event.parse s hr ∈ tr) : s ∈ sectionsOf tr := by
  unfold sectionsOf
  exact List.mem_filterMap.2 ⟨_, h, rfl⟩

theorem getElem?_inj_of_nodup {α : Type} {l : List α} (hnd : l.Nodup) {i j : Nat} {a : α}
    (hi : l[i]? = some a) (hj : l[j]? = some a) : i = j := by
  have hi' : i < l.length := (List.getElem?_eq_some.1 hi).1
  have hj' : j < l.length := (List.getElem?_eq_some.1 hj).1
  rcases Nat.lt_trichotomy i j with h | h | h
  · exact absurd (hi.trans hj.symm) (List.nodup_iff_getElem?_ne_getElem?.1 hnd i j h hj')
  · exact h
  · exact absurd (hj.trans hi.symm) (List.nodup_iff_getElem?_ne_getElem?.1 hnd j i h hi')

theorem sectionRun_failed_event {T : Slices} {rest : List Section} {f g : Frame T}
    (h : SectionRun rest f g) (hnd : rest.Nodup) (hf : sectionsOf f.trace = [])
    {k : Nat} {s : Section} {hr : HRESULT} (hk : rest[k]? = some s)
    (hev : Event.parse s hr ∈ g.trace) (hfail : FAILED hr = true) :
    g.hr = hr ∧ sectionsOf g.trace = rest.take (k + 1) := by
  obtain ⟨evs, h1, h2, -, h4, h5, -⟩ := h
  rw [List.getLast?_map] at h5
  obtain ⟨a, ha, ha2⟩ := Option.map_eq_some'.1 h5
  obtain ⟨ys, rfl⟩ := List.getLast?_eq_some_iff.1 ha
  rw [List.dropLast_concat] at h4
  -- the failing event is the last one
  have hmem : (s, hr) ∈ ys ++ [a] := by
    rw [h1] at hev
    rcases List.mem_append.1 hev with hev | hev
    · have := mem_sectionsOf_of_parse_mem hev
      rw [hf] at this
      exact absurd this (List.not_mem_nil _)
    · obtain ⟨p, hp, hpe⟩ := List.mem_map.1 hev
      have : p = (s, hr) := by
        cases p
        simp only [parseEvent, Event.parse.injEq] at hpe
        exact Prod.ext hpe.1 hpe.2
      exact this ▸ hp
  have hlast : a = (s, hr) := by
    rcases List.mem_append.1 hmem with hm | hm
    · have := h4 _ hm
      rw [hfail] at this
      exact absurd this (by simp)
    · exact (List.mem_singleton.1 hm).symm
  subst hlast
  -- its position in `rest`
  have hidx : rest[ys.length]? = some s := by
    have h3 : (List.map Prod.fst (ys ++ [(s, hr)]))[ys.length]? = some s := by
      simp
    rw [h2, List.getElem?_take_of_lt (by simp)] at h3
    exact h3
  have hkn : k = ys.length := getElem?_inj_of_nodup hnd hk hidx
  refine ⟨ha2.symm, ?_⟩
  rw [h1, sectionsOf_append, hf, sectionsOf_parseEvents, h2, hkn]
  simp

theorem sectionRun_fatal {T : Slices} {rest : List Section} {f g : Frame T}
    (h : SectionRun rest f g) (hfail : FAILED g.hr = true) :
    ∃ e ∈ g.trace, e.fatal = true ∧ e.code = some g.hr := by
  obtain ⟨evs, h1, -, -, -, h5, -⟩ := h
  rw [List.getLast?_map] at h5
  obtain ⟨a, ha, ha2⟩ := Option.map_eq_some'.1 h5
  obtain ⟨ys, rfl⟩ := List.getLast?_eq_some_iff.1 ha
  refine ⟨parseEvent a, ?_, ?_, ?_⟩
  · rw [h1]
    simp
  · simpa [parseEvent, Event.fatal, ha2] using hfail
  · simp [parseEvent, Event.code, ha2]

/-! ## Frames at `LExit`: the `Chain` block followed by the sections block -/

theorem failed_elim {hr : HRESULT} {P : Prop} (h : FAILED hr = true)
    (h' : FAILED hr = false) : P := by
  rw [h] at h'
  cases h'

@[simp]
theorem chainExit_pixeBundle {T : Slices} (env : Env T) (a : Frame T) :
    (chainExit env a).pixeBundle = a.pixeBundle := by
  rw [chainExit_eq]
  split_ifs <;> simp

@[simp]
theorem chainExit_pixnLog {T : Slices} (env : Env T) (a : Frame T) :
    (chainExit env a).pixnLog = a.pixnLog := by
  rw [chainExit_eq]
  split_ifs <;> simp

@[simp]
theorem chainExit_pixnChain {T : Slices} (env : Env T) (a : Frame T) :
    (chainExit env a).pixnChain = (env.XmlSelectSingleNode a.pixeBundle "Chain").2 := by
  rw [chainExit_eq]
  split_ifs <;> simp

@[simp]
theorem chainExit_log {T : Slices} (env : Env T) (a : Frame T) :
    (chainExit env a).engine.log = a.engine.log := by
  rw [chainExit_eq]
  split_ifs <;> simp

@[simp]
theorem chainExit_stringReadsOf {T : Slices} (env : Env T) (a : Frame T) :
    stringReadsOf (chainExit env a).trace = stringReadsOf a.trace := by
  rw [chainExit_eq]
  split_ifs <;> simp

@[simp]
theorem chainExit_rootLookupsOf {T : Slices} (env : Env T) (a : Frame T) :
    rootLookupsOf (chainExit env a).trace = rootLookupsOf a.trace := by
  rw [chainExit_eq]
  split_ifs <;> simp

@[simp]
theorem chainExit_lookupsOf {T : Slices} (env : Env T) (a : Frame T) :
    lookupsOf (chainExit env a).trace = lookupsOf a.trace ++ ["Chain"] := by
  rw [chainExit_eq]
  split_ifs <;> simp

@[simp]
theorem chainExit_acquiresOf {T : Slices} (env : Env T) (a : Frame T) :
    acquiresOf (chainExit env a).trace =
      acquiresOf a.trace ++ (env.XmlSelectSingleNode a.pixeBundle "Chain").2.toList := by
  rw [chainExit_eq]
  split_ifs <;> simp

@[simp]
theorem chainExit_releasesOf {T : Slices} (env : Env T) (a : Frame T) :
    releasesOf (chainExit env a).trace = releasesOf a.trace := by
  rw [chainExit_eq]
  split_ifs <;> simp

@[simp]
theorem chainExit_documentAcquiresOf {T : Slices} (env : Env T) (a : Frame T) :
    documentAcquiresOf (chainExit env a).trace = documentAcquiresOf a.trace := by
  rw [chainExit_eq]
  split_ifs <;> simp

@[simp]
theorem chainExit_documentReleasesOf {T : Slices} (env : Env T) (a : Frame T) :
    documentReleasesOf (chainExit env a).trace = documentReleasesOf a.trace := by
  rw [chainExit_eq]
  split_ifs <;> simp

theorem chainExit_sections {T : Slices} (env : Env T) (a : Frame T) :
    ∃ n, n ≤ sectionOrder.length ∧
      sectionsOf (chainExit env a).trace = sectionsOf a.trace ++ sectionOrder.take n ∧
      (FAILED (chainExit env a).hr = false → n = sectionOrder.length) := by
  have leaf : ∀ x : Frame T, sectionsOf x.trace = sectionsOf a.trace →
      ∃ n, n ≤ sectionOrder.length ∧
        sectionsOf (sectionsExit env x).trace = sectionsOf a.trace ++ sectionOrder.take n ∧
        (FAILED (sectionsExit env x).hr = false → n = sectionOrder.length) := by
    intro x hx
    obtain ⟨n, -, h2, h3, h4⟩ := sectionRun_sections (sectionsExit_run env x)
    exact ⟨n, h2, hx ▸ h3, h4⟩
  rw [chainExit_eq]
  split_ifs with h0 h1 h2 h3 h4
  · exact ⟨0, by simp, by simp, failed_elim h0⟩
  · exact ⟨0, by simp, by simp, failed_elim h2.2⟩
  · exact ⟨0, by simp, by simp, failed_elim h3.2⟩
  · exact ⟨0, by simp, by simp, failed_elim h4.2⟩
  · exact leaf _ (by simp)
  · exact leaf _ (by simp)

theorem chainExit_failed_event {T : Slices} (env : Env T) (a : Frame T)
    (ha : sectionsOf a.trace = []) {k : Nat} {s : Section} {hr : HRESULT}
    (hk : sectionOrder[k]? = some s) (hev : Event.parse s hr ∈ (chainExit env a).trace)
    (hfail : FAILED hr = true) :
    (chainExit env a).hr = hr ∧
      sectionsOf (chainExit env a).trace = sectionOrder.take (k + 1) := by
  have hnd : sectionOrder.Nodup := by decide
  have leaf : ∀ x : Frame T, sectionsOf x.trace = [] →
      Event.parse s hr ∈ (sectionsExit env x).trace →
      (sectionsExit env x).hr = hr ∧
        sectionsOf (sectionsExit env x).trace = sectionOrder.take (k + 1) :=
    fun x hx hm => sectionRun_failed_event (sectionsExit_run env x) hnd hx hk hm hfail
  have step : ∀ x : Frame T, sectionsOf x.trace = [] → Event.parse s hr ∈ x.trace →
      x.hr = hr ∧ sectionsOf x.trace = sectionOrder.take (k + 1) := by
    intro x hx hm
    have := mem_sectionsOf_of_parse_mem hm
    rw [hx] at this
    exact absurd this (List.not_mem_nil _)
  rw [chainExit_eq] at hev ⊢
  split_ifs at hev ⊢
  · exact step _ (by simp [ha]) hev
  · exact step _ (by simp [ha]) hev
  · exact step _ (by simp [ha]) hev
  · exact step _ (by simp [ha]) hev
  · exact leaf _ (by simp [ha]) hev
  · exact leaf _ (by simp [ha]) hev

theorem fatal_yesNo {name : String} {hr : HRESULT} (h : fatalUnlessNotFound hr) :
    (Event.getYesNoAttribute name hr).fatal = true := by
  obtain ⟨h1, h2⟩ := h
  simp [Event.fatal, h2, Ne.symm h1]

theorem fatal_stringRead {name : String} {hr : HRESULT} (h : fatalUnlessNotFound hr) :
    (Event.getAttributeEx name hr).fatal = true := by
  obtain ⟨h1, h2⟩ := h
  simp [Event.fatal, h2, Ne.symm h1]

theorem chainExit_fatal {T : Slices} (env : Env T) (a : Frame T)
    (hfail : FAILED (chainExit env a).hr = true) :
    ∃ e ∈ (chainExit env a).trace, e.fatal = true ∧ e.code = some (chainExit env a).hr := by
  rw [chainExit_eq] at hfail ⊢
  split_ifs at hfail ⊢ with h0 h1 h2 h3 h4
  · exact ⟨Event.selectSingleNode "Chain" (doSelectChain env a).hr, by simp,
      by simpa [Event.fatal] using h0, rfl⟩
  · exact ⟨Event.getYesNoAttribute "DisableRollback"
      (doGetDisableRollback env (doSelectChain env a)).hr, by simp,
      fatal_yesNo h2, rfl⟩
  · exact ⟨Event.getYesNoAttribute "DisableSystemRestore"
      (doGetDisableSystemRestore env (doGetDisableRollback env (doSelectChain env a))).hr,
      by simp,
      fatal_yesNo h3, rfl⟩
  · exact ⟨Event.getYesNoAttribute "ParallelCache"
      (doGetParallelCache env (doGetDisableSystemRestore env
        (doGetDisableRollback env (doSelectChain env a)))).hr,
      by simp,
      fatal_yesNo h4, rfl⟩
  · exact sectionRun_fatal (sectionsExit_run env _) hfail
  · exact sectionRun_fatal (sectionsExit_run env _) hfail

theorem chainExit_engine {T : Slices} (env : Env T) (a : Frame T)
    (hs : sectionsOf (chainExit env a).trace = [])
    (hy : yesNoReadsOf (chainExit env a).trace = []) :
    (chainExit env a).engine = a.engine := by
  have leaf : ∀ x : Frame T, sectionsOf (sectionsExit env x).trace ≠ [] := by
    intro x hx
    obtain ⟨n, h1, -, h3, -⟩ := sectionRun_sections (sectionsExit_run env x)
    rw [h3] at hx
    have h5 := (List.append_eq_nil.1 hx).2
    have h6 := congrArg List.length h5
    simp [sectionOrder] at h6
    omega
  rw [chainExit_eq] at hs hy ⊢
  split_ifs at hs hy ⊢
  · simp
  · simp at hy
  · simp at hy
  · simp at hy
  · exact absurd hs (leaf _)
  · exact absurd hs (leaf _)

/-! ## Frames at `LExit`: the whole body -/

theorem bodyExit_sections {T : Slices} (env : Env T) (d : IXMLDOMDocument)
    (st : BURN_ENGINE_STATE T) :
    ∃ n, n ≤ sectionOrder.length ∧
      sectionsOf (bodyExit env d st).trace = sectionOrder.take n ∧
      (FAILED (bodyExit env d st).hr = false → n = sectionOrder.length) := by
  have leaf : ∀ a : Frame T, sectionsOf a.trace = [] →
      ∃ n, n ≤ sectionOrder.length ∧
        sectionsOf (chainExit env a).trace = sectionOrder.take n ∧
        (FAILED (chainExit env a).hr = false → n = sectionOrder.length) := by
    intro a ha
    obtain ⟨n, h1, h2, h3⟩ := chainExit_sections env a
    exact ⟨n, h1, by simpa [ha] using h2, h3⟩
  unfold bodyExit
  rw [bodyExit_eq]
  split_ifs with h0 h1 h2 h3 h4 h5
  · exact ⟨0, by simp, by simp, failed_elim h0⟩
  · exact ⟨0, by simp, by simp, failed_elim h1⟩
  · exact ⟨0, by simp, by simp, failed_elim h3.2⟩
  · exact ⟨0, by simp, by simp, failed_elim h4⟩
  · exact ⟨0, by simp, by simp, failed_elim h5⟩
  · exact leaf _ (by simp)
  · exact leaf _ (by simp)

theorem bodyExit_failed_event {T : Slices} (env : Env T) (d : IXMLDOMDocument)
    (st : BURN_ENGINE_STATE T) {k : Nat} {s : Section} {hr : HRESULT}
    (hk : sectionOrder[k]? = some s) (hev : Event.parse s hr ∈ (bodyExit env d st).trace)
    (hfail : FAILED hr = true) :
    (bodyExit env d st).hr = hr ∧
      sectionsOf (bodyExit env d st).trace = sectionOrder.take (k + 1) := by
  have step : ∀ x : Frame T, sectionsOf x.trace = [] → Event.parse s hr ∈ x.trace →
      x.hr = hr ∧ sectionsOf x.trace = sectionOrder.take (k + 1) := by
    intro x hx hm
    have := mem_sectionsOf_of_parse_mem hm
    rw [hx] at this
    exact absurd this (List.not_mem_nil _)
  unfold bodyExit at hev ⊢
  rw [bodyExit_eq] at hev ⊢
  split_ifs at hev ⊢
  · exact step _ (by simp) hev
  · exact step _ (by simp) hev
  · exact step _ (by simp) hev
  · exact step _ (by simp) hev
  · exact step _ (by simp) hev
  · exact chainExit_failed_event env _ (by simp) hk hev hfail
  · exact chainExit_failed_event env _ (by simp) hk hev hfail

theorem bodyExit_fatal {T : Slices} (env : Env T) (d : IXMLDOMDocument)
    (st : BURN_ENGINE_STATE T) (hfail : FAILED (bodyExit env d st).hr = true) :
    ∃ e ∈ (bodyExit env d st).trace,
      e.fatal = true ∧ e.code = some (bodyExit env d st).hr := by
  unfold bodyExit at hfail ⊢
  rw [bodyExit_eq] at hfail ⊢
  split_ifs at hfail ⊢ with h0 h1 h2 h3 h4 h5
  · exact ⟨Event.documentElement _, by simp, by simpa [Event.fatal] using h0, rfl⟩
  · exact ⟨Event.selectSingleNode "Log" _, by simp, by simpa [Event.fatal] using h1, rfl⟩
  · exact ⟨Event.getAttributeEx "PathVariable" _, by simp, fatal_stringRead h3, rfl⟩
  · exact ⟨Event.getAttributeEx "Prefix" _, by simp, by simpa [Event.fatal] using h4, rfl⟩
  · exact ⟨Event.getAttributeEx "Extension" _, by simp, by simpa [Event.fatal] using h5, rfl⟩
  · exact chainExit_fatal env _ hfail
  · exact chainExit_fatal env _ hfail

theorem bodyExit_engine {T : Slices} (env : Env T) (d : IXMLDOMDocument)
    (st : BURN_ENGINE_STATE T)
    (hs : sectionsOf (bodyExit env d st).trace = [])
    (hr : stringReadsOf (bodyExit env d st).trace = [])
    (hy : yesNoReadsOf (bodyExit env d st).trace = []) :
    (bodyExit env d st).engine = st := by
  unfold bodyExit at hs hr hy ⊢
  rw [bodyExit_eq] at hs hr hy ⊢
  split_ifs at hs hr hy ⊢
  · simp
  · simp
  · simp at hr
  · simp at hr
  · simp at hr
  · simp at hr
  · rw [chainExit_engine env _ hs hy]
    simp

theorem bodyExit_acquiresOf {T : Slices} (env : Env T) (d : IXMLDOMDocument)
    (st : BURN_ENGINE_STATE T) :
    acquiresOf (bodyExit env d st).trace =
      (bodyExit env d st).pixeBundle.toList ++ (bodyExit env d st).pixnLog.toList ++
        (bodyExit env d st).pixnChain.toList := by
  unfold bodyExit
  rw [bodyExit_eq]
  split_ifs <;> simp

theorem bodyExit_releasesOf {T : Slices} (env : Env T) (d : IXMLDOMDocument)
    (st : BURN_ENGINE_STATE T) :
    releasesOf (bodyExit env d st).trace = [] := by
  unfold bodyExit
  rw [bodyExit_eq]
  split_ifs <;> simp

theorem bodyExit_rootLookupsOf {T : Slices} (env : Env T) (d : IXMLDOMDocument)
    (st : BURN_ENGINE_STATE T) :
    rootLookupsOf (bodyExit env d st).trace = [(env.get_documentElement d).1] := by
  unfold bodyExit
  rw [bodyExit_eq]
  split_ifs <;> simp

theorem bodyExit_documentAcquiresOf {T : Slices} (env : Env T) (d : IXMLDOMDocument)
    (st : BURN_ENGINE_STATE T) :
    documentAcquiresOf (bodyExit env d st).trace = [] := by
  unfold bodyExit
  rw [bodyExit_eq]
  split_ifs <;> simp

theorem bodyExit_documentReleasesOf {T : Slices} (env : Env T) (d : IXMLDOMDocument)
    (st : BURN_ENGINE_STATE T) :
    documentReleasesOf (bodyExit env d st).trace = [] := by
  unfold bodyExit
  rw [bodyExit_eq]
  split_ifs <;> simp

/-- When the `Chain` lookup is reached, the run ends as the `Chain` block does on a
frame that still has the caller's flags and the bundle element. -/
theorem bodyExit_reaches_chain {T : Slices} (env : Env T) (d : IXMLDOMDocument)
    (st : BURN_ENGINE_STATE T) (h : "Chain" ∈ lookupsOf (bodyExit env d st).trace) :
    ∃ a : Frame T, bodyExit env d st = chainExit env a ∧
      a.pixeBundle = (env.get_documentElement d).2 ∧
      a.engine.fDisableRollback = st.fDisableRollback ∧
      a.engine.internalCommand = st.internalCommand ∧
      a.engine.fParallelCacheAndExecute = st.fParallelCacheAndExecute ∧
      yesNoReadsOf a.trace = [] ∧ sectionsOf a.trace = [] ∧ lookupsOf a.trace = ["Log"] := by
  unfold bodyExit at h ⊢
  rw [bodyExit_eq] at h ⊢
  split_ifs at h ⊢
  · simp at h
  · simp at h
  · simp at h
  · simp at h
  · simp at h
  · exact ⟨_, rfl, by simp, by simp, by simp, by simp, by simp, by simp, by simp⟩
  · exact ⟨_, rfl, by simp, by simp, by simp, by simp, by simp, by simp, by simp⟩

/-! ## Result codes -/

@[simp]
theorem FAILED_S_OK : FAILED S_OK = false := rfl

@[simp]
theorem FAILED_E_NOTFOUND : FAILED E_NOTFOUND = true := rfl

@[simp]
theorem not_fatalUnlessNotFound_E_NOTFOUND : ¬ fatalUnlessNotFound E_NOTFOUND :=
  fun h => h.1 rfl

/-! ## The outcome of `ParseFromXml` in terms of the frame at `LExit` -/

@[simp]
theorem ParseFromXml_hr {T : Slices} (env : Env T) (d : IXMLDOMDocument)
    (st : BURN_ENGINE_STATE T) : (ParseFromXml env d st).hr = (bodyExit env d st).hr := rfl

@[simp]
theorem ParseFromXml_engine {T : Slices} (env : Env T) (d : IXMLDOMDocument)
    (st : BURN_ENGINE_STATE T) :
    (ParseFromXml env d st).engine = (bodyExit env d st).engine := rfl

theorem ParseFromXml_trace {T : Slices} (env : Env T) (d : IXMLDOMDocument)
    (st : BURN_ENGINE_STATE T) :
    (ParseFromXml env d st).trace =
      (bodyExit env d st).trace ++ ReleaseObject (bodyExit env d st).pixnChain ++
        ReleaseObject (bodyExit env d st).pixnLog ++
        ReleaseObject (bodyExit env d st).pixeBundle := rfl

@[simp]
theorem ParseFromXml_sectionsOf {T : Slices} (env : Env T) (d : IXMLDOMDocument)
    (st : BURN_ENGINE_STATE T) :
    sectionsOf (ParseFromXml env d st).trace = sectionsOf (bodyExit env d st).trace := by
  simp [ParseFromXml_trace]

@[simp]
theorem ParseFromXml_lookupsOf {T : Slices} (env : Env T) (d : IXMLDOMDocument)
    (st : BURN_ENGINE_STATE T) :
    lookupsOf (ParseFromXml env d st).trace = lookupsOf (bodyExit env d st).trace := by
  simp [ParseFromXml_trace]

@[simp]
theorem ParseFromXml_stringReadsOf {T : Slices} (env : Env T) (d : IXMLDOMDocument)
    (st : BURN_ENGINE_STATE T) :
    stringReadsOf (ParseFromXml env d st).trace =
      stringReadsOf (bodyExit env d st).trace := by
  simp [ParseFromXml_trace]

@[simp]
theorem ParseFromXml_yesNoReadsOf {T : Slices} (env : Env T) (d : IXMLDOMDocument)
    (st : BURN_ENGINE_STATE T) :
    yesNoReadsOf (ParseFromXml env d st).trace =
      yesNoReadsOf (bodyExit env d st).trace := by
  simp [ParseFromXml_trace]

@[simp]
theorem ParseFromXml_rootLookupsOf {T : Slices} (env : Env T) (d : IXMLDOMDocument)
    (st : BURN_ENGINE_STATE T) :
    rootLookupsOf (ParseFromXml env d st).trace = [(env.get_documentElement d).1] := by
  simp [ParseFromXml_trace, bodyExit_rootLookupsOf]

theorem ParseFromXml_acquiresOf {T : Slices} (env : Env T) (d : IXMLDOMDocument)
    (st : BURN_ENGINE_STATE T) :
    acquiresOf (ParseFromXml env d st).trace =
      (bodyExit env d st).pixeBundle.toList ++ (bodyExit env d st).pixnLog.toList ++
        (bodyExit env d st).pixnChain.toList := by
  simp [ParseFromXml_trace, bodyExit_acquiresOf]

theorem ParseFromXml_releasesOf {T : Slices} (env : Env T) (d : IXMLDOMDocument)
    (st : BURN_ENGINE_STATE T) :
    releasesOf (ParseFromXml env d st).trace =
      (bodyExit env d st).pixnChain.toList ++ (bodyExit env d st).pixnLog.toList ++
        (bodyExit env d st).pixeBundle.toList := by
  simp [ParseFromXml_trace, bodyExit_releasesOf]

@[simp]
theorem ParseFromXml_documentAcquiresOf {T : Slices} (env : Env T)
    (d : IXMLDOMDocument) (st : BURN_ENGINE_STATE T) :
    documentAcquiresOf (ParseFromXml env d st).trace = [] := by
  simp [ParseFromXml_trace, bodyExit_documentAcquiresOf]

@[simp]
theorem ParseFromXml_documentReleasesOf {T : Slices} (env : Env T)
    (d : IXMLDOMDocument) (st : BURN_ENGINE_STATE T) :
    documentReleasesOf (ParseFromXml env d st).trace = [] := by
  simp [ParseFromXml_trace, bodyExit_documentReleasesOf]

theorem parse_mem_ParseFromXml {T : Slices} {env : Env T} {d : IXMLDOMDocument}
    {st : BURN_ENGINE_STATE T} {s : Section} {hr : HRESULT}
    (h : Event.parse s hr ∈ (ParseFromXml env d st).trace) :
    Event.parse s hr ∈ (bodyExit env d st).trace := by
  rw [ParseFromXml_trace] at h
  simp only [List.mem_append] at h
  rcases h with ((h | h) | h) | h
  · exact h
  · cases hp : (bodyExit env d st).pixnChain <;> simp [hp, ReleaseObject] at h
  · cases hp : (bodyExit env d st).pixnLog <;> simp [hp, ReleaseObject] at h
  · cases hp : (bodyExit env d st).pixeBundle <;> simp [hp, ReleaseObject] at h

theorem sectionsExit_condition_mem {T : Slices} (env : Env T) (x : Frame T) :
    Section.condition ∈ sectionsOf (sectionsExit env x).trace := by
  obtain ⟨n, h1, -, h3, -⟩ := sectionRun_sections (sectionsExit_run env x)
  rw [h3]
  apply List.mem_append_right
  obtain ⟨m, rfl⟩ : ∃ m, n = m + 1 := ⟨n - 1, by omega⟩
  simp [sectionOrder]

/-! ## Entry points -/

theorem ManifestLoadXmlFromFile_failed {T : Slices} (env : Env T) (wzPath : String)
    (st : BURN_ENGINE_STATE T) (h : FAILED (env.XmlLoadDocumentFromFile wzPath).1 = true) :
    ManifestLoadXmlFromFile env wzPath st =
      some { hr := (env.XmlLoadDocumentFromFile wzPath).1, engine := st,
             trace := Event.loadFromFile (env.XmlLoadDocumentFromFile wzPath).1 ::
               acquiredDocument (env.XmlLoadDocumentFromFile wzPath).2 ++
               ReleaseDocument (env.XmlLoadDocumentFromFile wzPath).2 } := by
  unfold ManifestLoadXmlFromFile
  simp [h]

theorem ManifestLoadXmlFromFile_loaded {T : Slices} (env : Env T) (wzPath : String)
    (st : BURN_ENGINE_STATE T) {d : IXMLDOMDocument}
    (h1 : FAILED (env.XmlLoadDocumentFromFile wzPath).1 = false)
    (h2 : (env.XmlLoadDocumentFromFile wzPath).2 = some d) :
    ManifestLoadXmlFromFile env wzPath st =
      some { hr := (ParseFromXml env d st).hr, engine := (ParseFromXml env d st).engine,
             trace := Event.loadFromFile (env.XmlLoadDocumentFromFile wzPath).1 ::
               Event.acquireDocument d :: (ParseFromXml env d st).trace ++
               [Event.releaseDocument d] } := by
  unfold ManifestLoadXmlFromFile
  simp [h1, h2, acquiredDocument, ReleaseDocument]

theorem ManifestLoadXmlFromBuffer_failed {T : Slices} (env : Env T) (pbBuffer : List Nat)
    (cbBuffer : Nat) (st : BURN_ENGINE_STATE T)
    (h : FAILED (env.XmlLoadDocumentFromBuffer pbBuffer cbBuffer).1 = true) :
    ManifestLoadXmlFromBuffer env pbBuffer cbBuffer st =
      some { hr := (env.XmlLoadDocumentFromBuffer pbBuffer cbBuffer).1, engine := st,
             trace := Event.loadFromBuffer (env.XmlLoadDocumentFromBuffer pbBuffer cbBuffer).1 ::
               acquiredDocument (env.XmlLoadDocumentFromBuffer pbBuffer cbBuffer).2 ++
               ReleaseDocument (env.XmlLoadDocumentFromBuffer pbBuffer cbBuffer).2 } := by
  unfold ManifestLoadXmlFromBuffer
  simp [h]

theorem ManifestLoadXmlFromBuffer_loaded {T : Slices} (env : Env T) (pbBuffer : List Nat)
    (cbBuffer : Nat) (st : BURN_ENGINE_STATE T) {d : IXMLDOMDocument}
    (h1 : FAILED (env.XmlLoadDocumentFromBuffer pbBuffer cbBuffer).1 = false)
    (h2 : (env.XmlLoadDocumentFromBuffer pbBuffer cbBuffer).2 = some d) :
    ManifestLoadXmlFromBuffer env pbBuffer cbBuffer st =
      some { hr := (ParseFromXml env d st).hr, engine := (ParseFromXml env d st).engine,
             trace := Event.loadFromBuffer (env.XmlLoadDocumentFromBuffer pbBuffer cbBuffer).1 ::
               Event.acquireDocument d :: (ParseFromXml env d st).trace ++
               [Event.releaseDocument d] } := by
  unfold ManifestLoadXmlFromBuffer
  simp [h1, h2, acquiredDocument, ReleaseDocument]

theorem bodyExit_root_failed {T : Slices} (env : Env T) (d : IXMLDOMDocument)
    (st : BURN_ENGINE_STATE T) (h : FAILED (env.get_documentElement d).1 = true) :
    bodyExit env d st = doGetDocumentElement env d (ParseFromXml.entry st) := by
  unfold bodyExit
  rw [bodyExit_eq]
  simp [h]

/-! ## The `Log` block on given answers of the accessors -/

theorem bodyExit_log_lookup_failed {T : Slices} (env : Env T) (d : IXMLDOMDocument)
    (st : BURN_ENGINE_STATE T) (hroot : FAILED (env.get_documentElement d).1 = false)
    (hlog : FAILED (env.child d "Log").1 = true) :
    bodyExit env d st =
      doSelectLog env (doGetDocumentElement env d (ParseFromXml.entry st)) := by
  unfold Env.child Env.bundle at hlog
  unfold bodyExit
  rw [bodyExit_eq]
  simp [hroot, hlog]

theorem bodyExit_log_absent {T : Slices} (env : Env T) (d : IXMLDOMDocument)
    (st : BURN_ENGINE_STATE T) (hroot : FAILED (env.get_documentElement d).1 = false)
    (hlog : FAILED (env.child d "Log").1 = false) (hne : (env.child d "Log").1 ≠ S_OK) :
    bodyExit env d st =
      chainExit env (doSelectLog env (doGetDocumentElement env d (ParseFromXml.entry st))) := by
  unfold Env.child Env.bundle at hlog hne
  unfold bodyExit
  rw [bodyExit_eq]
  simp [hroot, hlog, Ne.symm hne]

/-- The run on a document with a `Log` element, as nested tests on the answers of
the string accessor. -/
theorem bodyExit_log_present {T : Slices} (env : Env T) (d : IXMLDOMDocument)
    (st : BURN_ENGINE_STATE T) (hroot : FAILED (env.get_documentElement d).1 = false)
    (hlog : (env.child d "Log").1 = S_OK) :
    bodyExit env d st =
      if fatalUnlessNotFound (env.logAttribute d "PathVariable").1 then
        doGetLogPathVariable env
          (doSelectLog env (doGetDocumentElement env d (ParseFromXml.entry st)))
      else if FAILED (env.logAttribute d "Prefix").1 = true then
        doGetLogPrefix env (doGetLogPathVariable env
          (doSelectLog env (doGetDocumentElement env d (ParseFromXml.entry st))))
      else if FAILED (env.logAttribute d "Extension").1 = true then
        doGetLogExtension env (doGetLogPrefix env (doGetLogPathVariable env
          (doSelectLog env (doGetDocumentElement env d (ParseFromXml.entry st)))))
      else chainExit env (doGetLogExtension env (doGetLogPrefix env (doGetLogPathVariable env
          (doSelectLog env (doGetDocumentElement env d (ParseFromXml.entry st)))))) := by
  unfold Env.logAttribute
  unfold Env.child Env.bundle at hlog ⊢
  unfold bodyExit
  rw [bodyExit_eq]
  simp [hroot, hlog]

/-! ## The `Chain` block on given answers of the accessors -/

theorem chainExit_lookup_failed {T : Slices} (env : Env T) (a : Frame T)
    (h : FAILED (env.XmlSelectSingleNode a.pixeBundle "Chain").1 = true) :
    chainExit env a = doSelectChain env a := by
  rw [chainExit_eq]
  simp [h]

theorem chainExit_absent {T : Slices} (env : Env T) (a : Frame T)
    (h : FAILED (env.XmlSelectSingleNode a.pixeBundle "Chain").1 = false)
    (hne : (env.XmlSelectSingleNode a.pixeBundle "Chain").1 ≠ S_OK) :
    chainExit env a = sectionsExit env (doSelectChain env a) := by
  rw [chainExit_eq]
  simp [h, Ne.symm hne]

theorem chainExit_present {T : Slices} (env : Env T) (a : Frame T)
    (h : (env.XmlSelectSingleNode a.pixeBundle "Chain").1 = S_OK) :
    chainExit env a =
      if fatalUnlessNotFound (env.XmlGetYesNoAttribute
          (env.XmlSelectSingleNode a.pixeBundle "Chain").2 "DisableRollback").1 then
        doGetDisableRollback env (doSelectChain env a)
      else if fatalUnlessNotFound (env.XmlGetYesNoAttribute
          (env.XmlSelectSingleNode a.pixeBundle "Chain").2 "DisableSystemRestore").1 then
        doGetDisableSystemRestore env (doGetDisableRollback env (doSelectChain env a))
      else if fatalUnlessNotFound (env.XmlGetYesNoAttribute
          (env.XmlSelectSingleNode a.pixeBundle "Chain").2 "ParallelCache").1 then
        doGetParallelCache env (doGetDisableSystemRestore env
          (doGetDisableRollback env (doSelectChain env a)))
      else sectionsExit env (doGetParallelCache env (doGetDisableSystemRestore env
          (doGetDisableRollback env (doSelectChain env a)))) := by
  rw [chainExit_eq]
  simp [h]

/-! ## Failures returned are those of fatal steps -/

theorem ParseFromXml_fatal {T : Slices} (env : Env T) (d : IXMLDOMDocument)
    (st : BURN_ENGINE_STATE T) (hf : FAILED (ParseFromXml env d st).hr = true) :
    ∃ e ∈ (ParseFromXml env d st).trace,
      e.fatal = true ∧ e.code = some (ParseFromXml env d st).hr := by
  obtain ⟨e, he, hef, hec⟩ := bodyExit_fatal env d st (by simpa using hf)
  refine ⟨e, ?_, hef, by simpa using hec⟩
  rw [ParseFromXml_trace]
  simp [he]

theorem ParseFromXml_ok_of_no_fatal {T : Slices} (env : Env T) (d : IXMLDOMDocument)
    (st : BURN_ENGINE_STATE T)
    (hall : ∀ e ∈ (ParseFromXml env d st).trace, e.fatal = false) :
    FAILED (ParseFromXml env d st).hr = false ∧
      sectionsOf (ParseFromXml env d st).trace = sectionOrder := by
  have hok : FAILED (ParseFromXml env d st).hr = false := by
    cases hf : FAILED (ParseFromXml env d st).hr
    · rfl
    · obtain ⟨e, he, hef, -⟩ := ParseFromXml_fatal env d st hf
      rw [hall e he] at hef
      cases hef
  refine ⟨hok, ?_⟩
  obtain ⟨n, -, hn2, hn3⟩ := bodyExit_sections env d st
  rw [ParseFromXml_sectionsOf, hn2, hn3 (by simpa using hok), List.take_length]

/-! ## The claims -/

/-- C1: when the root-element lookup fails, `ParseFromXml` returns that failure,
no section parser runs and neither `Log` nor `Chain` is looked up; the two load
entry points, once the document is loaded, return the same failure with the same
trace properties. -/
theorem root_lookup_failure_is_fatal {T : Slices} (env : Env T) (d : IXMLDOMDocument)
    (st : BURN_ENGINE_STATE T) (h : FAILED (env.get_documentElement d).1 = true) :
    (ParseFromXml env d st).hr = (env.get_documentElement d).1 ∧
    FAILED (ParseFromXml env d st).hr = true ∧
    sectionsOf (ParseFromXml env d st).trace = [] ∧
    lookupsOf (ParseFromXml env d st).trace = [] ∧
    (∀ wzPath : String, FAILED (env.XmlLoadDocumentFromFile wzPath).1 = false →
      (env.XmlLoadDocumentFromFile wzPath).2 = some d →
      ∃ o, ManifestLoadXmlFromFile env wzPath st = some o ∧
        o.hr = (env.get_documentElement d).1 ∧ FAILED o.hr = true ∧
        sectionsOf o.trace = [] ∧ lookupsOf o.trace = []) ∧
    (∀ (pbBuffer : List Nat) (cbBuffer : Nat),
      FAILED (env.XmlLoadDocumentFromBuffer pbBuffer cbBuffer).1 = false →
      (env.XmlLoadDocumentFromBuffer pbBuffer cbBuffer).2 = some d →
      ∃ o, ManifestLoadXmlFromBuffer env pbBuffer cbBuffer st = some o ∧
        o.hr = (env.get_documentElement d).1 ∧ FAILED o.hr = true ∧
        sectionsOf o.trace = [] ∧ lookupsOf o.trace = []) := by
  have key := bodyExit_root_failed env d st h
  refine ⟨by simp [key], by simp [key, h], by simp [key], by simp [key], ?_, ?_⟩
  · intro wzPath h1 h2
    exact ⟨_, ManifestLoadXmlFromFile_loaded env wzPath st h1 h2, by simp [key],
      by simp [key, h], by simp [key], by simp [key]⟩
  · intro pbBuffer cbBuffer h1 h2
    exact ⟨_, ManifestLoadXmlFromBuffer_loaded env pbBuffer cbBuffer st h1 h2, by simp [key],
      by simp [key, h], by simp [key], by simp [key]⟩

theorem root_lookup_failure_is_fatal_witness :
    FAILED ((testEnv noRoot allOk).get_documentElement 7).1 = true ∧
    (ParseFromXml (testEnv noRoot allOk) 7 emptyState).hr = E_FAIL ∧
    sectionsOf (ParseFromXml (testEnv noRoot allOk) 7 emptyState).trace = [] ∧
    (∃ o, ManifestLoadXmlFromFile (testEnv noRoot allOk) "bundle.xml" emptyState
        = some o ∧ FAILED o.hr = true ∧ sectionsOf o.trace = []) :=
  have h := root_lookup_failure_is_fatal (testEnv noRoot allOk) 7 emptyState
    (by decide)
  ⟨by decide, h.1, h.2.2.1,
    (h.2.2.2.2.1 "bundle.xml" (by decide) (by decide)).imp
      fun _ ho => ⟨ho.1, ho.2.2.1, ho.2.2.2.1⟩⟩

/-- C2: on a successful load the section parsers invoked are exactly the eleven
parsers in the fixed order, each exactly once; on every run the parsers invoked
form an initial segment of that order. -/
theorem sections_invoked_in_fixed_order {T : Slices} (env : Env T) (d : IXMLDOMDocument)
    (st : BURN_ENGINE_STATE T) :
    (FAILED (ParseFromXml env d st).hr = false →
      sectionsOf (ParseFromXml env d st).trace =
        [Section.condition, Section.variables, Section.userExperience, Section.extensions,
         Section.searches, Section.registration, Section.update, Section.containers,
         Section.payloads, Section.packages, Section.approvedExes] ∧
      ∀ s : Section, (sectionsOf (ParseFromXml env d st).trace).count s = 1) ∧
    sectionsOf (ParseFromXml env d st).trace <+: sectionOrder ∧
    ∃ n, sectionsOf (ParseFromXml env d st).trace = sectionOrder.take n := by
  obtain ⟨n, -, h2, h3⟩ := bodyExit_sections env d st
  refine ⟨?_, ?_, n, by simpa using h2⟩
  · intro hok
    have hn := h3 (by simpa using hok)
    have hall : sectionsOf (ParseFromXml env d st).trace = sectionOrder := by
      rw [ParseFromXml_sectionsOf, h2, hn, List.take_length]
    rw [hall]
    refine ⟨rfl, ?_⟩
    intro s
    cases s <;> decide
  · rw [ParseFromXml_sectionsOf, h2]
    exact List.take_prefix n sectionOrder

theorem sections_invoked_in_fixed_order_witness :
    sectionsOf (ParseFromXml (testEnv fullDocument allOk) 7 emptyState).trace =
      [Section.condition, Section.variables, Section.userExperience, Section.extensions,
       Section.searches, Section.registration, Section.update, Section.containers,
       Section.payloads, Section.packages, Section.approvedExes] ∧
    sectionsOf (ParseFromXml (testEnv fullDocument (failingAt Section.searches)) 7
      emptyState).trace <+: sectionOrder :=
  ⟨((sections_invoked_in_fixed_order (testEnv fullDocument allOk) 7 emptyState).1
      (by decide)).1,
   (sections_invoked_in_fixed_order (testEnv fullDocument (failingAt Section.searches)) 7
      emptyState).2.1⟩

/-- C3: if the parser of the `k`-th section (counting from 0 in the fixed order) was
invoked and returned a failure, `ParseFromXml` returns exactly that code, the
parsers invoked are exactly the first `k + 1` of the order, so no later parser
is invoked; in particular `ApprovedExes` is not invoked when `Packages` fails. -/
theorem first_failing_section_short_circuits {T : Slices} (env : Env T)
    (d : IXMLDOMDocument) (st : BURN_ENGINE_STATE T) (k : Nat) (s : Section) (hr : HRESULT)
    (hk : sectionOrder[k]? = some s)
    (hev : Event.parse s hr ∈ (ParseFromXml env d st).trace)
    (hfail : FAILED hr = true) :
    (ParseFromXml env d st).hr = hr ∧
    sectionsOf (ParseFromXml env d st).trace = sectionOrder.take (k + 1) ∧
    (∀ (j : Nat) (t : Section), k < j → sectionOrder[j]? = some t →
      t ∉ sectionsOf (ParseFromXml env d st).trace) ∧
    (s = Section.packages →
      Section.approvedExes ∉ sectionsOf (ParseFromXml env d st).trace) := by
  obtain ⟨h1, h2⟩ := bodyExit_failed_event env d st hk (parse_mem_ParseFromXml hev) hfail
  have hnd : sectionOrder.Nodup := by decide
  have hlater : ∀ (j : Nat) (t : Section), k < j → sectionOrder[j]? = some t →
      t ∉ sectionsOf (ParseFromXml env d st).trace := by
    intro j t hj ht hmem
    rw [ParseFromXml_sectionsOf, h2] at hmem
    obtain ⟨i, hi, hit⟩ := List.getElem_of_mem hmem
    have hi' : i < k + 1 := by
      have := hi
      rw [List.length_take] at this
      omega
    have h4 : sectionOrder[i]? = some t := by
      rw [← List.getElem?_take_of_lt hi', List.getElem?_eq_getElem hi, hit]
    have := getElem?_inj_of_nodup hnd h4 ht
    omega
  refine ⟨by simpa using h1, by simpa using h2, hlater, ?_⟩
  intro hs
  subst hs
  have hk9 : k = 9 := getElem?_inj_of_nodup hnd hk (by decide)
  exact hlater 10 Section.approvedExes (by omega) (by decide)

theorem first_failing_section_short_circuits_witness :
    (ParseFromXml (testEnv fullDocument (failingAt Section.packages)) 7 emptyState).hr
      = E_FAIL ∧
    sectionsOf (ParseFromXml (testEnv fullDocument (failingAt Section.packages)) 7
      emptyState).trace = sectionOrder.take 10 ∧
    Section.approvedExes ∉ sectionsOf
      (ParseFromXml (testEnv fullDocument (failingAt Section.packages)) 7 emptyState).trace :=
  have h := first_failing_section_short_circuits
    (testEnv fullDocument (failingAt Section.packages)) 7 emptyState 9 Section.packages E_FAIL
    (by decide) (by decide) (by decide)
  ⟨h.1, h.2.1, h.2.2.2 rfl⟩

/-- C4: on a document with a `Log` element, a `PathVariable` reported not-found
(nothing stored) leaves `log.sczPathVariable` as the caller supplied it and does
not stop the `Log` step: `Prefix` is read, `Extension` is read once `Prefix` was,
the `Chain` lookup follows once both were, and the load succeeds when no step is
fatal.  A `Prefix` or `Extension` reported not-found makes the load fail, with
`E_NOTFOUND` when that read is reached, and no section parser is invoked. -/
theorem log_attribute_presence {T : Slices} (env : Env T) (d : IXMLDOMDocument)
    (st : BURN_ENGINE_STATE T) (hroot : FAILED (env.get_documentElement d).1 = false)
    (hlog : (env.child d "Log").1 = S_OK) :
    (env.logAttribute d "PathVariable" = (E_NOTFOUND, none) →
      (ParseFromXml env d st).engine.log.sczPathVariable = st.log.sczPathVariable ∧
      "Prefix" ∈ stringReadsOf (ParseFromXml env d st).trace ∧
      (FAILED (env.logAttribute d "Prefix").1 = false →
        "Extension" ∈ stringReadsOf (ParseFromXml env d st).trace) ∧
      (FAILED (env.logAttribute d "Prefix").1 = false →
        FAILED (env.logAttribute d "Extension").1 = false →
        "Chain" ∈ lookupsOf (ParseFromXml env d st).trace) ∧
      ((∀ e ∈ (ParseFromXml env d st).trace, e.fatal = false) →
        FAILED (ParseFromXml env d st).hr = false)) ∧
    ((env.logAttribute d "Prefix").1 = E_NOTFOUND ∨
        (env.logAttribute d "Extension").1 = E_NOTFOUND →
      FAILED (ParseFromXml env d st).hr = true ∧
      sectionsOf (ParseFromXml env d st).trace = [] ∧
      lookupsOf (ParseFromXml env d st).trace = ["Log"]) ∧
    (¬ fatalUnlessNotFound (env.logAttribute d "PathVariable").1 →
      (env.logAttribute d "Prefix").1 = E_NOTFOUND →
      (ParseFromXml env d st).hr = E_NOTFOUND) ∧
    (¬ fatalUnlessNotFound (env.logAttribute d "PathVariable").1 →
      FAILED (env.logAttribute d "Prefix").1 = false →
      (env.logAttribute d "Extension").1 = E_NOTFOUND →
      (ParseFromXml env d st).hr = E_NOTFOUND) := by
  have key := bodyExit_log_present env d st hroot hlog
  have hpv2 : (env.XmlGetAttributeEx (env.XmlSelectSingleNode (env.get_documentElement d).2
      "Log").2 "PathVariable") = env.logAttribute d "PathVariable" := rfl
  have hpx : (env.XmlGetAttributeEx (env.XmlSelectSingleNode (env.get_documentElement d).2
      "Log").2 "Prefix") = env.logAttribute d "Prefix" := rfl
  have hex : (env.XmlGetAttributeEx (env.XmlSelectSingleNode (env.get_documentElement d).2
      "Log").2 "Extension") = env.logAttribute d "Extension" := rfl
  refine ⟨?_, ?_, ?_, ?_⟩
  · intro hpv
    have hpv1 : (env.logAttribute d "PathVariable").1 = E_NOTFOUND := by rw [hpv]
    have hpvw : (env.logAttribute d "PathVariable").2 = none := by rw [hpv]
    rw [hpv1] at key
    simp only [not_fatalUnlessNotFound_E_NOTFOUND, if_false] at key
    refine ⟨?_, ?_, ?_, ?_, fun hall => (ParseFromXml_ok_of_no_fatal env d st hall).1⟩
    · rw [ParseFromXml_engine, key]
      split_ifs <;> simp [hpv2, hpvw, storeString]
    · rw [ParseFromXml_stringReadsOf, key]
      split_ifs <;> simp
    · intro h1
      have h1' : ¬ FAILED (env.logAttribute d "Prefix").1 = true := by simp [h1]
      rw [ParseFromXml_stringReadsOf, key, if_neg h1']
      split_ifs <;> simp
    · intro h1 h2
      rw [ParseFromXml_lookupsOf, key]
      simp [h1, h2]
  · intro h
    have hfail : FAILED (env.logAttribute d "Prefix").1 = true ∨
        FAILED (env.logAttribute d "Extension").1 = true := by
      rcases h with h | h
      · exact Or.inl (by rw [h]; rfl)
      · exact Or.inr (by rw [h]; rfl)
    rw [ParseFromXml_hr, ParseFromXml_sectionsOf, ParseFromXml_lookupsOf, key]
    split_ifs with h1 h2 h3
    · exact ⟨by simpa [hpv2] using h1.2, by simp, by simp⟩
    · exact ⟨by simpa [hpx] using h2, by simp, by simp⟩
    · exact ⟨by simpa [hex] using h3, by simp, by simp⟩
    · rcases hfail with h | h
      · exact absurd h h2
      · exact absurd h h3
  · intro h1 h2
    rw [ParseFromXml_hr, key]
    have h3 : FAILED (env.logAttribute d "Prefix").1 = true := by rw [h2]; rfl
    simp [h1, h3, hpx, h2]
  · intro h1 h2 h3
    rw [ParseFromXml_hr, key]
    have h4 : FAILED (env.logAttribute d "Extension").1 = true := by rw [h3]; rfl
    simp [h1, h2, h4, hex, h3]

theorem log_attribute_presence_witness :
    (ParseFromXml (testEnv logWithoutPathVariable allOk) 7 emptyState).engine.log.sczPathVariable
      = none ∧
    "Prefix" ∈ stringReadsOf (ParseFromXml (testEnv logWithoutPathVariable allOk) 7
      emptyState).trace ∧
    "Chain" ∈ lookupsOf (ParseFromXml (testEnv logWithoutPathVariable allOk) 7
      emptyState).trace ∧
    FAILED (ParseFromXml (testEnv logWithoutPathVariable allOk) 7 emptyState).hr = false ∧
    FAILED (ParseFromXml (testEnv logWithoutPrefix allOk) 7 emptyState).hr = true ∧
    sectionsOf (ParseFromXml (testEnv logWithoutPrefix allOk) 7 emptyState).trace = [] :=
  have h1 := log_attribute_presence (testEnv logWithoutPathVariable allOk) 7 emptyState
    (by decide) (by decide)
  have h2 := log_attribute_presence (testEnv logWithoutPrefix allOk) 7 emptyState
    (by decide) (by decide)
  ⟨(h1.1 (by decide)).1, (h1.1 (by decide)).2.1,
    (h1.1 (by decide)).2.2.2.1 (by decide) (by decide),
    (h1.1 (by decide)).2.2.2.2 (by decide),
    (h2.2.1 (Or.inl (by decide))).1, (h2.2.1 (Or.inl (by decide))).2.1⟩

/-- C5: on a document whose `Chain` element is found, a yes/no read that fails with
anything but not-found makes `ParseFromXml` return exactly that failure with no
section parser invoked; a read reporting not-found (nothing stored) leaves its flag
as the caller supplied it and the run goes on with the next step.  A failure
returned by `ParseFromXml` is always the code of a step that is fatal (never a
tolerated not-found), and when no step is fatal the load succeeds with all eleven
parsers run.  The yes/no accessor of the spec rejects every token other than
`yes` and `no` with such a failure. -/
theorem chain_flag_attributes {T : Slices} (env : Env T) (d : IXMLDOMDocument)
    (st : BURN_ENGINE_STATE T)
    (hreach : "Chain" ∈ lookupsOf (ParseFromXml env d st).trace)
    (hchain : (env.child d "Chain").1 = S_OK) :
    (fatalUnlessNotFound (env.chainAttribute d "DisableRollback").1 →
      (ParseFromXml env d st).hr = (env.chainAttribute d "DisableRollback").1 ∧
      FAILED (ParseFromXml env d st).hr = true ∧
      sectionsOf (ParseFromXml env d st).trace = []) ∧
    (env.chainAttribute d "DisableRollback" = (E_NOTFOUND, none) →
      (ParseFromXml env d st).engine.fDisableRollback = st.fDisableRollback ∧
      "DisableSystemRestore" ∈ yesNoReadsOf (ParseFromXml env d st).trace) ∧
    (¬ fatalUnlessNotFound (env.chainAttribute d "DisableRollback").1 →
      fatalUnlessNotFound (env.chainAttribute d "DisableSystemRestore").1 →
      (ParseFromXml env d st).hr = (env.chainAttribute d "DisableSystemRestore").1 ∧
      FAILED (ParseFromXml env d st).hr = true ∧
      sectionsOf (ParseFromXml env d st).trace = []) ∧
    (env.chainAttribute d "DisableSystemRestore" = (E_NOTFOUND, none) →
      (ParseFromXml env d st).engine.internalCommand.fDisableSystemRestore =
        st.internalCommand.fDisableSystemRestore ∧
      (¬ fatalUnlessNotFound (env.chainAttribute d "DisableRollback").1 →
        "ParallelCache" ∈ yesNoReadsOf (ParseFromXml env d st).trace)) ∧
    (¬ fatalUnlessNotFound (env.chainAttribute d "DisableRollback").1 →
      ¬ fatalUnlessNotFound (env.chainAttribute d "DisableSystemRestore").1 →
      fatalUnlessNotFound (env.chainAttribute d "ParallelCache").1 →
      (ParseFromXml env d st).hr = (env.chainAttribute d "ParallelCache").1 ∧
      FAILED (ParseFromXml env d st).hr = true ∧
      sectionsOf (ParseFromXml env d st).trace = []) ∧
    (env.chainAttribute d "ParallelCache" = (E_NOTFOUND, none) →
      (ParseFromXml env d st).engine.fParallelCacheAndExecute =
        st.fParallelCacheAndExecute ∧
      (¬ fatalUnlessNotFound (env.chainAttribute d "DisableRollback").1 →
        ¬ fatalUnlessNotFound (env.chainAttribute d "DisableSystemRestore").1 →
        Section.condition ∈ sectionsOf (ParseFromXml env d st).trace)) ∧
    (FAILED (ParseFromXml env d st).hr = true →
      ∃ e ∈ (ParseFromXml env d st).trace,
        e.fatal = true ∧ e.code = some (ParseFromXml env d st).hr) ∧
    ((∀ e ∈ (ParseFromXml env d st).trace, e.fatal = false) →
      FAILED (ParseFromXml env d st).hr = false ∧
      sectionsOf (ParseFromXml env d st).trace = sectionOrder) ∧
    (∀ v : String, v ≠ "yes" → v ≠ "no" → fatalUnlessNotFound (specYesNo v).1) := by
  rw [ParseFromXml_lookupsOf] at hreach
  obtain ⟨a, ha, hb, h1, h2, h3, h4, h5, -⟩ := bodyExit_reaches_chain env d st hreach
  have hb' : env.XmlSelectSingleNode a.pixeBundle "Chain" = env.child d "Chain" := by
    rw [hb]
    rfl
  have key := chainExit_present env a (by rw [hb']; exact hchain)
  rw [hb'] at key
  have hdr : env.XmlGetYesNoAttribute (env.child d "Chain").2 "DisableRollback" =
    env.chainAttribute d "DisableRollback" := rfl
  have hdsr : env.XmlGetYesNoAttribute (env.child d "Chain").2 "DisableSystemRestore" =
    env.chainAttribute d "DisableSystemRestore" := rfl
  have hpc : env.XmlGetYesNoAttribute (env.child d "Chain").2 "ParallelCache" =
    env.chainAttribute d "ParallelCache" := rfl
  rw [hdr, hdsr, hpc] at key
  refine ⟨?_, ?_, ?_, ?_, ?_, ?_, ParseFromXml_fatal env d st,
    ParseFromXml_ok_of_no_fatal env d st, ?_⟩
  · intro hf
    rw [ParseFromXml_hr, ParseFromXml_sectionsOf, ha, key, if_pos hf]
    exact ⟨by simp [hb', hdr], by simpa [hb', hdr] using hf.2, by simp [h5]⟩
  · intro hnf
    have hw : (env.chainAttribute d "DisableRollback").2 = none := by rw [hnf]
    have hc : ¬ fatalUnlessNotFound (env.chainAttribute d "DisableRollback").1 := by
      rw [hnf]
      exact not_fatalUnlessNotFound_E_NOTFOUND
    rw [ParseFromXml_engine, ParseFromXml_yesNoReadsOf, ha, key, if_neg hc]
    constructor
    · split_ifs <;> simp [hb', hdr, hw, storeBool, h1]
    · split_ifs <;> simp
  · intro hc hf
    rw [ParseFromXml_hr, ParseFromXml_sectionsOf, ha, key, if_neg hc, if_pos hf]
    exact ⟨by simp [hb', hdsr], by simpa [hb', hdsr] using hf.2, by simp [h5]⟩
  · intro hnf
    have hw : (env.chainAttribute d "DisableSystemRestore").2 = none := by rw [hnf]
    have hc : ¬ fatalUnlessNotFound (env.chainAttribute d "DisableSystemRestore").1 := by
      rw [hnf]
      exact not_fatalUnlessNotFound_E_NOTFOUND
    constructor
    · rw [ParseFromXml_engine, ha, key, if_neg hc]
      split_ifs <;> simp [hb', hdsr, hw, storeBool, h2]
    · intro hc1
      rw [ParseFromXml_yesNoReadsOf, ha, key, if_neg hc1, if_neg hc]
      split_ifs <;> simp
  · intro hc1 hc2 hf
    rw [ParseFromXml_hr, ParseFromXml_sectionsOf, ha, key, if_neg hc1, if_neg hc2, if_pos hf]
    exact ⟨by simp [hb', hpc], by simpa [hb', hpc] using hf.2, by simp [h5]⟩
  · intro hnf
    have hw : (env.chainAttribute d "ParallelCache").2 = none := by rw [hnf]
    have hc : ¬ fatalUnlessNotFound (env.chainAttribute d "ParallelCache").1 := by
      rw [hnf]
      exact not_fatalUnlessNotFound_E_NOTFOUND
    constructor
    · rw [ParseFromXml_engine, ha, key, if_neg hc]
      split_ifs <;> simp [hb', hpc, hw, storeBool, h3]
    · intro hc1 hc2
      rw [ParseFromXml_sectionsOf, ha, key, if_neg hc1, if_neg hc2, if_neg hc]
      exact sectionsExit_condition_mem env _
  · intro v hy hn
    unfold specYesNo
    rw [if_neg hy, if_neg hn]
    decide

theorem chain_flag_attributes_witness :
    (ParseFromXml (testEnv chainWithMaybe allOk) 7 emptyState).hr = E_INVALIDARG ∧
    sectionsOf (ParseFromXml (testEnv chainWithMaybe allOk) 7 emptyState).trace = [] ∧
    (ParseFromXml (testEnv chainWithoutFlags allOk) 7 emptyState).engine.fDisableRollback
      = 0 ∧
    FAILED (ParseFromXml (testEnv chainWithoutFlags allOk) 7 emptyState).hr = false :=
  have h1 := chain_flag_attributes (testEnv chainWithMaybe allOk) 7 emptyState
    (by decide) (by decide)
  have h2 := chain_flag_attributes (testEnv chainWithoutFlags allOk) 7 emptyState
    (by decide) (by decide)
  ⟨(h1.1 (by decide)).1, (h1.1 (by decide)).2.2, (h2.2.1 (by decide)).1,
    (h2.2.2.2.2.2.2.2.1 (by decide)).1⟩

/-- C6 (as stated, refuted): a failing `ParseFromXml` need not leave the engine state
as it was.  On a `Log` element that has `PathVariable` and lacks `Prefix`, the read
of `PathVariable` stores its value in `log.sczPathVariable`, then the read of
`Prefix` reports not-found and the load fails with the field still written. -/
theorem failed_load_is_not_all_or_nothing :
    FAILED (ParseFromXml (testEnv logWithoutPrefix allOk) 7 emptyState).hr = true ∧
    emptyState.log.sczPathVariable = none ∧
    (ParseFromXml (testEnv logWithoutPrefix allOk) 7 emptyState).engine.log.sczPathVariable
      = some "WixBundleLog" ∧
    (ParseFromXml (testEnv logWithoutPrefix allOk) 7 emptyState).engine ≠ emptyState := by
  refine ⟨by decide, rfl, by decide, ?_⟩
  intro h
  have h2 := congrArg (fun e => e.log.sczPathVariable) h
  revert h2
  decide

/-- C6 (amended): when no attribute was read and no section parser was invoked, the
call failed and the engine state is the caller's; in particular this is so when
the root-element lookup or the `Log` lookup fails. -/
theorem failed_load_before_any_write_keeps_state {T : Slices} (env : Env T)
    (d : IXMLDOMDocument) (st : BURN_ENGINE_STATE T)
    (hs : sectionsOf (ParseFromXml env d st).trace = [])
    (hr : stringReadsOf (ParseFromXml env d st).trace = [])
    (hy : yesNoReadsOf (ParseFromXml env d st).trace = []) :
    FAILED (ParseFromXml env d st).hr = true ∧ (ParseFromXml env d st).engine = st := by
  rw [ParseFromXml_sectionsOf] at hs
  rw [ParseFromXml_stringReadsOf] at hr
  rw [ParseFromXml_yesNoReadsOf] at hy
  refine ⟨?_, by rw [ParseFromXml_engine]; exact bodyExit_engine env d st hs hr hy⟩
  obtain ⟨n, -, h2, h3⟩ := bodyExit_sections env d st
  cases hf : FAILED (ParseFromXml env d st).hr
  · have hn := h3 (by simpa using hf)
    rw [hs, hn, List.take_length] at h2
    exact absurd h2 (by decide)
  · rfl

theorem failed_load_before_any_write_keeps_state_witness :
    FAILED (ParseFromXml (failingLookup "Log" fullDocument allOk) 7 emptyState).hr = true ∧
    (ParseFromXml (failingLookup "Log" fullDocument allOk) 7 emptyState).engine = emptyState :=
  failed_load_before_any_write_keeps_state (failingLookup "Log" fullDocument allOk) 7
    emptyState (by decide) (by decide) (by decide)

/-- C7: when the `Log` lookup reports not-found (a success code other than `S_OK`) no
`Log` attribute is read, the three log fields are the caller's, and the run goes on
to the `Chain` lookup; when the `Chain` lookup reports not-found no `Chain`
attribute is read, the three flags are the caller's, and the run goes on to the
first section parser. -/
theorem absent_element_keeps_defaults {T : Slices} (env : Env T) (d : IXMLDOMDocument)
    (st : BURN_ENGINE_STATE T) :
    (FAILED (env.get_documentElement d).1 = false →
      FAILED (env.child d "Log").1 = false → (env.child d "Log").1 ≠ S_OK →
      stringReadsOf (ParseFromXml env d st).trace = [] ∧
      (ParseFromXml env d st).engine.log = st.log ∧
      "Chain" ∈ lookupsOf (ParseFromXml env d st).trace) ∧
    ("Chain" ∈ lookupsOf (ParseFromXml env d st).trace →
      FAILED (env.child d "Chain").1 = false → (env.child d "Chain").1 ≠ S_OK →
      yesNoReadsOf (ParseFromXml env d st).trace = [] ∧
      (ParseFromXml env d st).engine.fDisableRollback = st.fDisableRollback ∧
      (ParseFromXml env d st).engine.internalCommand.fDisableSystemRestore =
        st.internalCommand.fDisableSystemRestore ∧
      (ParseFromXml env d st).engine.fParallelCacheAndExecute =
        st.fParallelCacheAndExecute ∧
      Section.condition ∈ sectionsOf (ParseFromXml env d st).trace) := by
  constructor
  · intro hroot hlog hne
    have key := bodyExit_log_absent env d st hroot hlog hne
    rw [ParseFromXml_stringReadsOf, ParseFromXml_engine, ParseFromXml_lookupsOf, key]
    exact ⟨by simp, by simp, by simp⟩
  · intro hreach hchain hne
    rw [ParseFromXml_lookupsOf] at hreach
    obtain ⟨a, ha, hb, h1, h2, h3, h4, h5, -⟩ := bodyExit_reaches_chain env d st hreach
    have hb' : env.XmlSelectSingleNode a.pixeBundle "Chain" = env.child d "Chain" := by
      rw [hb]
      rfl
    have key := chainExit_absent env a (by rw [hb']; exact hchain) (by rw [hb']; exact hne)
    rw [ParseFromXml_yesNoReadsOf, ParseFromXml_engine, ParseFromXml_sectionsOf, ha, key]
    refine ⟨by simp [h4], by simp [h1], by simp [h2], by simp [h3], ?_⟩
    exact sectionsExit_condition_mem env _

theorem absent_element_keeps_defaults_witness :
    stringReadsOf (ParseFromXml (testEnv emptyBundle allOk) 7 emptyState).trace = [] ∧
    (ParseFromXml (testEnv emptyBundle allOk) 7 emptyState).engine.log = emptyState.log ∧
    yesNoReadsOf (ParseFromXml (testEnv emptyBundle allOk) 7 emptyState).trace = [] ∧
    (ParseFromXml (testEnv emptyBundle allOk) 7 emptyState).engine.fDisableRollback = 0 ∧
    FAILED (ParseFromXml (testEnv emptyBundle allOk) 7 emptyState).hr = false :=
  have h := absent_element_keeps_defaults (testEnv emptyBundle allOk) 7 emptyState
  have h1 := h.1 (by decide) (by decide) (by decide)
  have h2 := h.2 h1.2.2 (by decide) (by decide)
  ⟨h1.1, h1.2.1, h2.1, h2.2.1, by decide⟩

/-- C8: when the file loader and the buffer loader succeed with the same document,
`ManifestLoadXmlFromFile` and `ManifestLoadXmlFromBuffer` return the same code and
leave the same engine state, those of `ParseFromXml` on that document (which
depend on the document only through the answer of `get_documentElement`); when a
load fails, the entry point returns the load failure, `ParseFromXml` is not
invoked and the engine state is the caller's. -/
theorem file_and_buffer_loads_agree {T : Slices} (env : Env T) (wzPath : String)
    (pbBuffer : List Nat) (cbBuffer : Nat) (st : BURN_ENGINE_STATE T) (d : IXMLDOMDocument)
    (hf1 : FAILED (env.XmlLoadDocumentFromFile wzPath).1 = false)
    (hf2 : (env.XmlLoadDocumentFromFile wzPath).2 = some d)
    (hb1 : FAILED (env.XmlLoadDocumentFromBuffer pbBuffer cbBuffer).1 = false)
    (hb2 : (env.XmlLoadDocumentFromBuffer pbBuffer cbBuffer).2 = some d) :
    (∃ oF oB, ManifestLoadXmlFromFile env wzPath st = some oF ∧
      ManifestLoadXmlFromBuffer env pbBuffer cbBuffer st = some oB ∧
      oF.hr = oB.hr ∧ oF.engine = oB.engine ∧
      oF.hr = (ParseFromXml env d st).hr ∧ oF.engine = (ParseFromXml env d st).engine) ∧
    (∀ d' : IXMLDOMDocument, env.get_documentElement d' = env.get_documentElement d →
      ParseFromXml env d' st = ParseFromXml env d st) ∧
    (∀ p : String, FAILED (env.XmlLoadDocumentFromFile p).1 = true →
      ∃ o, ManifestLoadXmlFromFile env p st = some o ∧
        o.hr = (env.XmlLoadDocumentFromFile p).1 ∧ o.engine = st ∧
        rootLookupsOf o.trace = [] ∧ sectionsOf o.trace = []) ∧
    (∀ (b : List Nat) (c : Nat), FAILED (env.XmlLoadDocumentFromBuffer b c).1 = true →
      ∃ o, ManifestLoadXmlFromBuffer env b c st = some o ∧
        o.hr = (env.XmlLoadDocumentFromBuffer b c).1 ∧ o.engine = st ∧
        rootLookupsOf o.trace = [] ∧ sectionsOf o.trace = []) := by
  refine ⟨⟨_, _, ManifestLoadXmlFromFile_loaded env wzPath st hf1 hf2,
    ManifestLoadXmlFromBuffer_loaded env pbBuffer cbBuffer st hb1 hb2, rfl, rfl, rfl, rfl⟩,
    ?_, ?_, ?_⟩
  · intro d' hd
    unfold ParseFromXml ParseFromXml.body doGetDocumentElement
    rw [hd]
  · intro p hp
    exact ⟨_, ManifestLoadXmlFromFile_failed env p st hp, rfl, rfl, by simp, by simp⟩
  · intro b c hp
    exact ⟨_, ManifestLoadXmlFromBuffer_failed env b c st hp, rfl, rfl, by simp, by simp⟩

theorem file_and_buffer_loads_agree_witness :
    (∃ oF oB, ManifestLoadXmlFromFile (testEnv fullDocument allOk) "bundle.xml" emptyState
        = some oF ∧
      ManifestLoadXmlFromBuffer (testEnv fullDocument allOk) [60, 66] 2 emptyState = some oB ∧
      oF.hr = oB.hr ∧ oF.engine = oB.engine ∧ oF.hr = S_OK) ∧
    (∃ o, ManifestLoadXmlFromFile (testEnv fullDocument allOk) "" emptyState = some o ∧
      o.hr = E_FAIL ∧ o.engine = emptyState) :=
  have h := file_and_buffer_loads_agree (testEnv fullDocument allOk) "bundle.xml" [60, 66] 2
    emptyState 7 (by decide) (by decide) (by decide) (by decide)
  ⟨h.1.imp fun _ hF => hF.imp fun _ hB =>
      ⟨hB.1, hB.2.1, hB.2.2.1, hB.2.2.2.1, hB.2.2.2.2.1.trans (by decide)⟩,
    (h.2.2.1 "" (by decide)).imp fun _ ho => ⟨ho.1, ho.2.1, ho.2.2.1⟩⟩

/-- C9: on every exit path of `ParseFromXml` the node pointers released are exactly
the node pointers handed out, in reverse order, so each is released as many times
as it was handed out and nothing else is released; each load entry point that
returns releases the document pointer it was handed exactly once, and releases no
document when the loader handed out none. -/
theorem handles_released_exactly_once {T : Slices} (env : Env T) (d : IXMLDOMDocument)
    (st : BURN_ENGINE_STATE T) :
    releasesOf (ParseFromXml env d st).trace =
      (acquiresOf (ParseFromXml env d st).trace).reverse ∧
    (∀ n : IXMLDOMNode, (releasesOf (ParseFromXml env d st).trace).count n =
      (acquiresOf (ParseFromXml env d st).trace).count n) ∧
    (∀ wzPath : String,
      FAILED (env.XmlLoadDocumentFromFile wzPath).1 = true ∨
        (env.XmlLoadDocumentFromFile wzPath).2 = some d →
      ∃ o, ManifestLoadXmlFromFile env wzPath st = some o ∧
        documentAcquiresOf o.trace = (env.XmlLoadDocumentFromFile wzPath).2.toList ∧
        documentReleasesOf o.trace = (env.XmlLoadDocumentFromFile wzPath).2.toList ∧
        ((env.XmlLoadDocumentFromFile wzPath).2 = none → documentReleasesOf o.trace = []) ∧
        releasesOf o.trace = (acquiresOf o.trace).reverse) ∧
    (∀ (pbBuffer : List Nat) (cbBuffer : Nat),
      FAILED (env.XmlLoadDocumentFromBuffer pbBuffer cbBuffer).1 = true ∨
        (env.XmlLoadDocumentFromBuffer pbBuffer cbBuffer).2 = some d →
      ∃ o, ManifestLoadXmlFromBuffer env pbBuffer cbBuffer st = some o ∧
        documentAcquiresOf o.trace =
          (env.XmlLoadDocumentFromBuffer pbBuffer cbBuffer).2.toList ∧
        documentReleasesOf o.trace =
          (env.XmlLoadDocumentFromBuffer pbBuffer cbBuffer).2.toList ∧
        ((env.XmlLoadDocumentFromBuffer pbBuffer cbBuffer).2 = none →
          documentReleasesOf o.trace = []) ∧
        releasesOf o.trace = (acquiresOf o.trace).reverse) := by
  have hbal : releasesOf (ParseFromXml env d st).trace =
      (acquiresOf (ParseFromXml env d st).trace).reverse := by
    rw [ParseFromXml_releasesOf, ParseFromXml_acquiresOf]
    cases (bodyExit env d st).pixeBundle <;> cases (bodyExit env d st).pixnLog <;>
      cases (bodyExit env d st).pixnChain <;> rfl
  refine ⟨hbal, ?_, ?_, ?_⟩
  · intro n
    rw [hbal, List.count_reverse]
  · intro wzPath h
    by_cases hf : FAILED (env.XmlLoadDocumentFromFile wzPath).1 = true
    · refine ⟨_, ManifestLoadXmlFromFile_failed env wzPath st hf, ?_, ?_, ?_, ?_⟩
      · simp
      · simp
      · intro hn
        simp [hn]
      · simp
    · have hd : (env.XmlLoadDocumentFromFile wzPath).2 = some d := h.resolve_left hf
      refine ⟨_, ManifestLoadXmlFromFile_loaded env wzPath st (by simpa using hf) hd,
        ?_, ?_, ?_, ?_⟩
      · simp [hd]
      · simp [hd]
      · intro hn
        rw [hd] at hn
        cases hn
      · simpa using hbal
  · intro pbBuffer cbBuffer h
    by_cases hf : FAILED (env.XmlLoadDocumentFromBuffer pbBuffer cbBuffer).1 = true
    · refine ⟨_, ManifestLoadXmlFromBuffer_failed env pbBuffer cbBuffer st hf, ?_, ?_, ?_, ?_⟩
      · simp
      · simp
      · intro hn
        simp [hn]
      · simp
    · have hd : (env.XmlLoadDocumentFromBuffer pbBuffer cbBuffer).2 = some d :=
        h.resolve_left hf
      refine ⟨_, ManifestLoadXmlFromBuffer_loaded env pbBuffer cbBuffer st (by simpa using hf)
        hd, ?_, ?_, ?_, ?_⟩
      · simp [hd]
      · simp [hd]
      · intro hn
        rw [hd] at hn
        cases hn
      · simpa using hbal

theorem handles_released_exactly_once_witness :
    acquiresOf (ParseFromXml (testEnv fullDocument allOk) 7 emptyState).trace = [1, 2, 3] ∧
    releasesOf (ParseFromXml (testEnv fullDocument allOk) 7 emptyState).trace = [3, 2, 1] ∧
    releasesOf (ParseFromXml (testEnv logWithoutPrefix allOk) 7 emptyState).trace = [2, 1] ∧
    (∃ o, ManifestLoadXmlFromFile (testEnv fullDocument allOk) "bundle.xml" emptyState
        = some o ∧ documentReleasesOf o.trace = [7]) ∧
    (∃ o, ManifestLoadXmlFromFile (testEnv fullDocument allOk) "" emptyState = some o ∧
      documentReleasesOf o.trace = []) :=
  have h1 := handles_released_exactly_once (testEnv fullDocument allOk) 7 emptyState
  have h2 := handles_released_exactly_once (testEnv logWithoutPrefix allOk) 7 emptyState
  ⟨by decide, h1.1.trans (by decide), h2.1.trans (by decide),
    (h1.2.2.1 "bundle.xml" (Or.inr (by decide))).imp fun _ ho => ⟨ho.1, ho.2.2.1⟩,
    (h1.2.2.1 "" (Or.inl (by decide))).imp fun _ ho => ⟨ho.1, ho.2.2.2.1 (by decide)⟩⟩

/-- C10: a failure of the `Log` lookup is returned as it is, with no attribute read,
no `Chain` lookup and no section parser invoked; a failure of the `Chain` lookup is
returned as it is, with no yes/no attribute read and no section parser invoked. -/
theorem lookup_failure_is_fatal {T : Slices} (env : Env T) (d : IXMLDOMDocument)
    (st : BURN_ENGINE_STATE T) :
    (FAILED (env.get_documentElement d).1 = false → FAILED (env.child d "Log").1 = true →
      (ParseFromXml env d st).hr = (env.child d "Log").1 ∧
      stringReadsOf (ParseFromXml env d st).trace = [] ∧
      yesNoReadsOf (ParseFromXml env d st).trace = [] ∧
      sectionsOf (ParseFromXml env d st).trace = [] ∧
      lookupsOf (ParseFromXml env d st).trace = ["Log"]) ∧
    ("Chain" ∈ lookupsOf (ParseFromXml env d st).trace →
      FAILED (env.child d "Chain").1 = true →
      (ParseFromXml env d st).hr = (env.child d "Chain").1 ∧
      yesNoReadsOf (ParseFromXml env d st).trace = [] ∧
      sectionsOf (ParseFromXml env d st).trace = []) := by
  constructor
  · intro hroot hlog
    have key := bodyExit_log_lookup_failed env d st hroot hlog
    rw [ParseFromXml_hr, ParseFromXml_stringReadsOf, ParseFromXml_yesNoReadsOf,
      ParseFromXml_sectionsOf, ParseFromXml_lookupsOf, key]
    exact ⟨by simp [Env.child, Env.bundle], by simp, by simp, by simp, by simp⟩
  · intro hreach hchain
    rw [ParseFromXml_lookupsOf] at hreach
    obtain ⟨a, ha, hb, -, -, -, h4, h5, -⟩ := bodyExit_reaches_chain env d st hreach
    have hb' : env.XmlSelectSingleNode a.pixeBundle "Chain" = env.child d "Chain" := by
      rw [hb]
      rfl
    have key := chainExit_lookup_failed env a (by rw [hb']; exact hchain)
    rw [ParseFromXml_hr, ParseFromXml_yesNoReadsOf, ParseFromXml_sectionsOf, ha, key]
    exact ⟨by simp [hb'], by simp [h4], by simp [h5]⟩

theorem lookup_failure_is_fatal_witness :
    (ParseFromXml (failingLookup "Log" fullDocument allOk) 7 emptyState).hr = E_FAIL ∧
    lookupsOf (ParseFromXml (failingLookup "Log" fullDocument allOk) 7 emptyState).trace
      = ["Log"] ∧
    (ParseFromXml (failingLookup "Chain" fullDocument allOk) 7 emptyState).hr = E_FAIL ∧
    sectionsOf (ParseFromXml (failingLookup "Chain" fullDocument allOk) 7 emptyState).trace
      = [] :=
  have h1 := (lookup_failure_is_fatal (failingLookup "Log" fullDocument allOk) 7
    emptyState).1 (by decide) (by decide)
  have h2 := (lookup_failure_is_fatal (failingLookup "Chain" fullDocument allOk) 7
    emptyState).2 (by decide) (by decide)
  ⟨h1.1, h1.2.2.2.2, h2.1, h2.2.2⟩

end Manifest
